import Mathlib

/-!
Verification development for the family-scheduler push-reminder engine
(`src/app/lib/push.ts`).

The TypeScript source is shallowly embedded below: pure helpers become Lean
functions, the SQL-backed stores become explicit list-valued state, and the
web-push transport becomes an explicit outcome parameter.  Machine numbers are
Int/Nat (JavaScript's integer arithmetic in this file stays far below 2^53, so
no wrap-around modelling is needed).  Environment inputs that the source reads
via I/O (the current instant, the `Intl`-computed zone-local date/time, the
VAPID configuration, the transport outcome per endpoint) are parameters of the
embedded sweep.
-/

namespace FamilyScheduler

/-! ### Identity sets (push.ts lines 41-61) -/

def childUserNames : List String := ["רביד", "עמית", "אלין"]

def parentUserNames : List String := ["סיוון", "רועי"]

def childNameSet (value : String) : Bool := childUserNames.contains value

def parentNameSet (value : String) : Bool := parentUserNames.contains value

/-- The `childKeyToName` record from push.ts lines 54-61: latin keys and Hebrew
names both map to the canonical Hebrew child name; anything else is absent. -/
def childKeyToName (key : String) : Option String :=
  if key = "ravid" then some "רביד"
  else if key = "amit" then some "עמית"
  else if key = "alin" then some "אלין"
  else if key = "רביד" then some "רביד"
  else if key = "עמית" then some "עמית"
  else if key = "אלין" then some "אלין"
  else none

/-! ### String helpers mirroring the JavaScript operations used -/

/-- JavaScript `String.prototype.toLowerCase` restricted to the alphabet this
program uses (ASCII latin keys and Hebrew names; Hebrew has no case). -/
def toLowerCaseStr (s : String) : String := String.mk (s.data.map Char.toLower)

/-- Contiguous-infix test: `pat` occurs somewhere inside `s`.  This models the
JavaScript regular-expression tests `/רביד/.test(raw)` etc., which are plain
substring tests because the patterns contain no metacharacters. -/
def hasSubstring (pat : List Char) : List Char → Bool
  | [] => pat.isEmpty
  | c :: rest => pat.isPrefixOf (c :: rest) || hasSubstring pat rest

/-- JavaScript `String.prototype.trim`: strip leading and trailing whitespace.
(Structural re-implementation so that terms reduce inside the kernel.) -/
def trimStr (s : String) : String :=
  String.mk (((s.data.dropWhile Char.isWhitespace).reverse.dropWhile
    Char.isWhitespace).reverse)

/-- JavaScript `String.prototype.split` with a single-character separator. -/
def splitOnChar (sep : Char) : List Char → List (List Char)
  | [] => [[]]
  | c :: rest =>
      match splitOnChar sep rest with
      | [] => [[]]
      | grp :: more =>
          if c = sep then [] :: grp :: more else (c :: grp) :: more

def splitStr (s : String) (sep : Char) : List String :=
  (splitOnChar sep s.data).map String.mk

/-- First-occurrence-preserving deduplication, modelling `[...new Set(xs)]`. -/
def dedupKeepFirst : List String → List String → List String
  | [], _ => []
  | x :: xs, seen =>
      if seen.contains x then dedupKeepFirst xs seen
      else x :: dedupKeepFirst xs (x :: seen)

/-! ### Audience resolution (push.ts lines 63-98 and 338-378) -/

/-- The `normalizeTaskChildNames` (push.ts lines 63-87): lower-case and trim the
raw recipient encoding, split on underscores, map each token through
`childKeyToName` dropping unknowns, additionally add any Hebrew child name
that occurs as a substring of the raw value, then deduplicate. -/
def normalizeTaskChildNames (rawChild : String) : List String :=
  let normalized := toLowerCaseStr (trimStr rawChild)
  if normalized = "" then []
  else
    let tokens := ((splitStr normalized '_').map trimStr).filter (fun t => t ≠ "")
    let values := tokens.filterMap childKeyToName
    let values := values ++ (if hasSubstring "רביד".data rawChild.data then ["רביד"] else [])
    let values := values ++ (if hasSubstring "עמית".data rawChild.data then ["עמית"] else [])
    let values := values ++ (if hasSubstring "אלין".data rawChild.data then ["אלין"] else [])
    dedupKeepFirst values []

def reminderLeadOptions : List Int := [5, 10, 15, 30]

def defaultReminderLeadMinutes : Int := 10

/-- The `normalizeReminderLeadMinutes` (push.ts lines 93-98).  The stored column is
a nullable integer; `Number(null) = 0`, so an absent value never matches the
enumeration and falls back to the default. -/
def normalizeReminderLeadMinutes (value : Option Int) : Int :=
  let numeric : Int := match value with
    | none => 0
    | some n => n
  if reminderLeadOptions.contains numeric then numeric else defaultReminderLeadMinutes

/-- A row of the `push_subscriptions` table (push.ts lines 16-24). -/
structure SubscriptionRow where
  endpoint : String
  p256dh : String
  auth : String
  user_name : Option String
  receive_all : Option Bool
  watch_children : Option String
  reminder_lead_minutes : Option Int
  deriving DecidableEq, Repr

/-- A row of the `family_schedule` table as read by the sweep
(push.ts lines 26-39; flags are nullable and coalesced where used). -/
structure TaskRow where
  id : String
  text : String
  day : String
  time : String
  child : String
  taskType : String
  is_weekly : Option Bool
  completed : Option Bool
  notified : Option Bool
  send_notification : Option Bool
  require_confirmation : Option Bool
  needs_ack : Option Bool
  deriving DecidableEq, Repr

/-- The `getTaskAudienceChildren` (push.ts lines 338-341). -/
def getTaskAudienceChildren (task : TaskRow) : List String :=
  normalizeTaskChildNames (trimStr task.child)

/-- The `shouldSubscriptionReceiveTask` (push.ts lines 343-378). -/
def shouldSubscriptionReceiveTask (subscription : SubscriptionRow)
    (audienceChildren : List String) : Bool :=
  if audienceChildren.length = 0 then false
  else
    let userName := trimStr (subscription.user_name.getD "")
    if userName = "" then true
    else if childNameSet userName then audienceChildren.contains userName
    else if parentNameSet userName then
      if subscription.receive_all.getD false then true
      else
        let trackedChildren :=
          ((splitStr (subscription.watch_children.getD "") ',').map trimStr).filter
            childNameSet
        if trackedChildren.length = 0 then true
        else trackedChildren.any (fun name => audienceChildren.contains name)
    else false

/-- Spec-refinement definition for claim C7, following the spec's words: the
member of the fixed enumeration nearest to the stored value. -/
def nearestAllowedLead (v : Int) : Int :=
  reminderLeadOptions.foldl
    (fun best o => if (v - o).natAbs < (v - best).natAbs then o else best) 5

/-! ### Time and date parsing (push.ts lines 380-477) -/

def digitVal (c : Char) : Option Nat :=
  if c.isDigit then some (c.toNat - 48) else none

def digitsToNat (cs : List Char) : Option Nat :=
  cs.foldl (fun acc c => do
    let a ← acc
    let d ← digitVal c
    pure (a * 10 + d)) (some 0)

/-- The regular expression `^(\d{1,2}):(\d{2})$` of `parseTimeToMinutes` and
`parseTaskStartUtc`, as a structural pattern on the character list. -/
def parseTimeChars : List Char → Option (Nat × Nat)
  | [h1, ':', m1, m2] => do
      let h ← digitVal h1
      let a ← digitVal m1
      let b ← digitVal m2
      pure (h, a * 10 + b)
  | [h1, h2, ':', m1, m2] => do
      let x ← digitVal h1
      let y ← digitVal h2
      let a ← digitVal m1
      let b ← digitVal m2
      pure (x * 10 + y, a * 10 + b)
  | _ => none

/-- The `parseTimeToMinutes` (push.ts lines 380-393): HH:MM with 00-23 / 00-59
bounds, else null. -/
def parseTimeToMinutes (value : String) : Option Nat :=
  match parseTimeChars (trimStr value).data with
  | none => none
  | some (hours, minutes) =>
      if hours > 23 ∨ minutes > 59 then none
      else some (hours * 60 + minutes)

/-- The test `/^\d{4}-\d{2}-\d{2}T/` with its captured date prefix. -/
def isoStartKey : List Char → Option (List Char)
  | a :: b :: c :: d :: '-' :: e :: f :: '-' :: g :: h :: 'T' :: _ =>
      if ([a,b,c,d,e,f,g,h]).all Char.isDigit then some [a,b,c,d,'-',e,f,'-',g,h]
      else none
  | _ => none

/-- The anchored match `^(\d{4})-(\d{2})-(\d{2})$`, keeping the text. -/
def ymdKey : List Char → Option (List Char)
  | [a,b,c,d,'-',e,f,'-',g,h] =>
      if ([a,b,c,d,e,f,g,h]).all Char.isDigit then some [a,b,c,d,'-',e,f,'-',g,h]
      else none
  | _ => none

/-- The anchored match `^(\d{2})-(\d{2})-(\d{4})$`, reordered to y-m-d. -/
def dmyKey : List Char → Option (List Char)
  | [a,b,'-',c,d,'-',e,f,g,h] =>
      if ([a,b,c,d,e,f,g,h]).all Char.isDigit then some [e,f,g,h,'-',c,d,'-',a,b]
      else none
  | _ => none

/-- The `parseTaskDateKey` (push.ts lines 418-436): extract a `YYYY-MM-DD` date
key from an ISO date-time prefix, a `YYYY-MM-DD` value, or a `DD-MM-YYYY`
value, returning the empty string otherwise. -/
def parseTaskDateKey (value : String) : String :=
  let t := (trimStr value).data
  match isoStartKey t with
  | some k => String.mk k
  | none =>
    match ymdKey t with
    | some k => String.mk k
    | none =>
      match dmyKey t with
      | some k => String.mk k
      | none => ""

/-! The ECMAScript `Date` fields for UTC-marked ISO strings: proleptic
Gregorian calendar, milliseconds since the 1970-01-01 epoch (ECMA-262
`MakeDay`/`MakeDate`), with out-of-range components rejected as an invalid
date. -/

def isLeapYear (y : Nat) : Bool :=
  (y % 4 == 0 && !(y % 100 == 0)) || y % 400 == 0

def daysInMonth (y m : Nat) : Nat :=
  if m = 2 then (if isLeapYear y then 29 else 28)
  else if m = 4 ∨ m = 6 ∨ m = 9 ∨ m = 11 then 30
  else 31

def validCivil (y m d : Nat) : Bool :=
  decide (1 ≤ m) && decide (m ≤ 12) && decide (1 ≤ d) && decide (d ≤ daysInMonth y m)

/-- Days since 1970-01-01 of a proleptic-Gregorian civil date. -/
def daysFromCivil (y m d : Nat) : Int :=
  let yAdj : Int := (y : Int) - (if m ≤ 2 then 1 else 0)
  let era : Int := Int.fdiv yAdj 400
  let yoe : Int := yAdj - era * 400
  let mShift : Int := if 2 < m then (m : Int) - 3 else (m : Int) + 9
  let doy : Int := Int.fdiv (153 * mShift + 2) 5 + (d : Int) - 1
  let doe : Int := yoe * 365 + Int.fdiv yoe 4 - Int.fdiv yoe 100 + doy
  era * 146097 + doe - 719468

def padNum (w : Nat) (n : Nat) : String :=
  let s := toString n
  String.mk (List.replicate (w - s.length) '0' ++ s.data)

/-- The `Date.prototype.toISOString` rendering of a UTC instant given by its
civil fields (years 0-9999). -/
def renderIsoUtc (y m d hh mm ss msec : Nat) : String :=
  padNum 4 y ++ "-" ++ padNum 2 m ++ "-" ++ padNum 2 d ++ "T" ++ padNum 2 hh ++ ":" ++
    padNum 2 mm ++ ":" ++ padNum 2 ss ++ "." ++ padNum 3 msec ++ "Z"

/-- The scheduled-start instant as the sweep uses it: `getTime()` (epoch
milliseconds) and `toISOString()` (the canonical UTC rendering). -/
structure StartUtc where
  iso : String
  ms : Int
  deriving DecidableEq, Repr

/-- Builds the instant for an assembled `YYYY-MM-DDTHH:MM:00.000Z` string as
`new Date(...)` does: valid civil date gives the UTC instant, anything else
is an invalid date (null). -/
def mkStartUtc (y mo dy hours minutes : Nat) : Option StartUtc :=
  if validCivil y mo dy then
    some { iso := renderIsoUtc y mo dy hours minutes 0 0,
           ms := daysFromCivil y mo dy * 86400000 +
             (hours : Int) * 3600000 + (minutes : Int) * 60000 }
  else none

def ymdParts : List Char → Option (Nat × Nat × Nat)
  | [a,b,c,d,'-',e,f,'-',g,h] => do
      let y ← digitsToNat [a,b,c,d]
      let mo ← digitsToNat [e,f]
      let dy ← digitsToNat [g,h]
      pure (y, mo, dy)
  | _ => none

def dmyParts : List Char → Option (Nat × Nat × Nat)
  | [a,b,'-',c,d,'-',e,f,g,h] => do
      let dy ← digitsToNat [a,b]
      let mo ← digitsToNat [c,d]
      let y ← digitsToNat [e,f,g,h]
      pure (y, mo, dy)
  | _ => none

/-- The seconds/milliseconds tail of a UTC-marked ISO date-time:
`Z`, `:SSZ`, or `:SS.sssZ`. -/
def parseIsoZTail : List Char → Option (Nat × Nat)
  | ['Z'] => some (0, 0)
  | ':' :: s1 :: s2 :: rest2 => do
      let a ← digitVal s1
      let b ← digitVal s2
      let ss := a * 10 + b
      if ss > 59 then none
      else
        match rest2 with
        | ['Z'] => some (ss, 0)
        | ['.', f1, f2, f3, 'Z'] => do
            let x ← digitVal f1
            let y ← digitVal f2
            let z ← digitVal f3
            pure (ss, x * 100 + y * 10 + z)
        | _ => none
  | _ => none

/-- The `new Date(day)` on a string that begins with an ISO date-time prefix
(push.ts lines 457-460).  Modelled for the UTC-marked forms
`YYYY-MM-DDTHH:MM[:SS[.sss]]Z`; a zone-less ISO string is interpreted by
JavaScript in the host's local zone, an environment dependency this model
treats as unparsable. -/
def parseIsoDateTimeZ (s : List Char) : Option StartUtc :=
  match s with
  | y1 :: y2 :: y3 :: y4 :: '-' :: m1 :: m2 :: '-' :: d1 :: d2 :: 'T' :: h1 :: h2 :: ':' :: n1 :: n2 :: rest => do
      let y ← digitsToNat [y1,y2,y3,y4]
      let mo ← digitsToNat [m1,m2]
      let dy ← digitsToNat [d1,d2]
      let hh ← digitsToNat [h1,h2]
      let mm ← digitsToNat [n1,n2]
      let tail ← parseIsoZTail rest
      let ss := tail.1
      let msec := tail.2
      if validCivil y mo dy && decide (hh ≤ 23) && decide (mm ≤ 59) then
        pure { iso := renderIsoUtc y mo dy hh mm ss msec,
               ms := daysFromCivil y mo dy * 86400000 + (hh : Int) * 3600000 +
                 (mm : Int) * 60000 + (ss : Int) * 1000 + (msec : Int) }
      else none
  | _ => none

/-- The `parseTaskStartUtc` (push.ts lines 438-477): validate the `HH:MM` time,
then build the start instant from an ISO date-time prefix, a `YYYY-MM-DD`
day, or a `DD-MM-YYYY` day, combining day and time as a UTC instant. -/
def parseTaskStartUtc (dayValue timeValue : String) : Option StartUtc :=
  let day := trimStr dayValue
  let time := trimStr timeValue
  if day = "" ∨ time = "" then none
  else
    match parseTimeChars time.data with
    | none => none
    | some (hours, minutes) =>
        if hours > 23 ∨ minutes > 59 then none
        else
          match isoStartKey day.data with
          | some _ => parseIsoDateTimeZ day.data
          | none =>
            match ymdParts day.data with
            | some (y, mo, dy) => mkStartUtc y mo dy hours minutes
            | none =>
              match dmyParts day.data with
              | some (y, mo, dy) => mkStartUtc y mo dy hours minutes
              | none => none

/-! ### Dispatch keys and the dedup store (push.ts lines 479-495, 660) -/

/-- The dispatch key template of push.ts line 660:
`${task.id}:${taskStartUtc.toISOString()}:${reminderLeadMinutes}:${subscription.endpoint}`. -/
def mkDispatchKey (taskId iso : String) (lead : Int) (endpoint : String) : String :=
  taskId ++ ":" ++ iso ++ ":" ++ toString lead ++ ":" ++ endpoint

/-- The `wasReminderDispatched` (push.ts lines 479-487): existence check of the
key in the `push_reminder_dispatches` store. -/
def wasReminderDispatched (dispatched : List String) (dispatchKey : String) : Bool :=
  dispatched.contains dispatchKey

/-- The `markReminderDispatched` (push.ts lines 489-495): `INSERT ... ON CONFLICT
(dispatch_key) DO NOTHING` — a set insert that is a silent no-op on an
existing key. -/
def markReminderDispatched (dispatched : List String) (dispatchKey : String) :
    List String :=
  if dispatched.contains dispatchKey then dispatched else dispatchKey :: dispatched

/-! ### Delivery transport (push.ts lines 221-275) -/

/-- The outcome `webpush.sendNotification` produces for one call: success, or
an error carrying an HTTP status code (0 when the thrown error has no numeric
`statusCode`). -/
inductive TransportResult where
  | success
  | failure (statusCode : Int)
  deriving DecidableEq, Repr

/-- The result record of `sendToSubscription`. -/
structure SendOutcome where
  ok : Bool
  removed : Bool
  reason : Option String
  deriving DecidableEq, Repr

/-- The `removePushSubscription` (push.ts lines 221-229): trim the endpoint, do
nothing when empty, else delete the row with that endpoint. -/
def removePushSubscription (store : List SubscriptionRow) (endpoint : String) :
    List SubscriptionRow :=
  let trimmed := trimStr endpoint
  if trimmed = "" then store
  else store.filter (fun row => row.endpoint ≠ trimmed)

/-- The `sendToSubscription` (push.ts lines 231-275).  `hasVapid` is whether the
VAPID key pair is configured (`initVapid`); `result` is the transport outcome
of the one network call the function would make; the subscription store is
threaded so the 404/410 self-healing delete is visible. -/
def sendToSubscription (hasVapid : Bool) (result : TransportResult)
    (store : List SubscriptionRow) (row : SubscriptionRow) :
    SendOutcome × List SubscriptionRow :=
  if !hasVapid then
    ({ ok := false, removed := false, reason := some "missing-vapid" }, store)
  else
    match result with
    | .success => ({ ok := true, removed := false, reason := none }, store)
    | .failure statusCode =>
        if statusCode = 404 ∨ statusCode = 410 then
          ({ ok := false, removed := true, reason := some "expired-subscription" },
            removePushSubscription store row.endpoint)
        else
          ({ ok := false, removed := false, reason := some "send-failed" }, store)

/-! ### The reminder sweep (push.ts lines 497-734) -/

/-- The zone-local now computed by `getNowInTimeZone` (push.ts lines
395-416): the current calendar date in the configured zone as `YYYY-MM-DD`,
and the current wall-clock minute of that day.  The `Intl` formatting is
environment I/O, so the sweep model takes this observation as an input. -/
structure TzNow where
  dateKey : String
  minutes : Int
  deriving DecidableEq, Repr

/-- The per-task skip reasons of the sweep's `skippedByReason` record. -/
inductive SkipReason where
  | completed
  | already_notified
  | notifications_disabled
  | invalid_date
  | date_mismatch
  | invalid_time
  | outside_window
  | no_audience_subscriptions
  | offset_not_due
  | delivery_failed
  deriving DecidableEq, Repr

/-- The sweep's resolved configuration and environment: the (already
normalized) forward tolerance, the strict-child flag, the optional zone-local
now, the UTC now in epoch milliseconds, the VAPID configuration state, and
the transport outcome a delivery to each endpoint would produce. -/
structure SweepConfig where
  windowForwardMinutes : Int
  strictChildUserOnly : Bool
  nowTz : Option TzNow
  nowUtcMs : Int
  hasVapid : Bool
  transport : String → TransportResult

/-- Normalization of the `windowForwardMinutes` option (push.ts lines
516-519): absent gives 15, present is clamped into 0..15. -/
def normalizeWindowForwardMinutes (raw : Option Int) : Int :=
  match raw with
  | none => 15
  | some n => max 0 (min 15 n)

/-- The per-subscription fine-window test of push.ts line 655:
due iff not (`diffMinutes < minDue` or `diffMinutes > maxDue`). -/
def offsetDue (reminderLeadMinutes windowForwardMinutes diffMinutes : Int) : Bool :=
  !(decide (diffMinutes < reminderLeadMinutes) ||
    decide (reminderLeadMinutes + windowForwardMinutes < diffMinutes))

/-- The `taskEligibility` is the gate sequence of push.ts lines 576-618: the
completed / already-notified / disabled skips, date and time parsing, and the
time-zone date-mismatch check, ending with the `diffMinutes` value the window
logic will use (zone wall-clock difference when a zone is configured, UTC
difference otherwise). -/
def taskEligibility (cfg : SweepConfig) (task : TaskRow) :
    Except SkipReason (StartUtc × Int) :=
  if task.completed.getD false then .error .completed
  else if task.notified.getD false then .error .already_notified
  else if !(task.send_notification.getD true) then .error .notifications_disabled
  else
    match parseTaskStartUtc task.day task.time with
    | none => .error .invalid_date
    | some taskStartUtc =>
        match parseTimeToMinutes task.time with
        | none => .error .invalid_time
        | some taskMinutes =>
            match cfg.nowTz with
            | some nowInTimeZone =>
                let taskDateKey := parseTaskDateKey task.day
                if taskDateKey = "" ∨ taskDateKey ≠ nowInTimeZone.dateKey then
                  .error .date_mismatch
                else
                  .ok (taskStartUtc, (taskMinutes : Int) - nowInTimeZone.minutes)
            | none =>
                .ok (taskStartUtc, Int.fdiv (taskStartUtc.ms - cfg.nowUtcMs) 60000)

/-- The target-subscription filter of push.ts lines 628-640: in the resolved
audience, and under `strictChildUserOnly` additionally a child identity named
by the task. -/
def isTargetSubscription (cfg : SweepConfig)
    (audienceChildren taskChildNames : List String)
    (subscription : SubscriptionRow) : Bool :=
  shouldSubscriptionReceiveTask subscription audienceChildren &&
    (!cfg.strictChildUserOnly ||
      (childNameSet (trimStr (subscription.user_name.getD "")) &&
        taskChildNames.contains (trimStr (subscription.user_name.getD ""))))

/-- The evolving state of the per-task subscription loop (push.ts lines
648-690), plus the bookkeeping lists the theorems read off: keys of
successful deliveries, keys for which a send was attempted, and keys skipped
as already dispatched, each in loop order. -/
structure LoopState where
  dispatched : List String
  store : List SubscriptionRow
  deliveredKeys : List String
  attemptedKeys : List String
  alreadyKeys : List String
  hadDueByOffset : Bool

/-- One iteration of the subscription loop (push.ts lines 651-690): fine
window check, dedup check, delivery attempt, and record-on-success. -/
def loopStep (cfg : SweepConfig) (taskId isoStart : String) (diffMinutes : Int)
    (st : LoopState) (subscription : SubscriptionRow) : LoopState :=
  let reminderLeadMinutes := normalizeReminderLeadMinutes subscription.reminder_lead_minutes
  if !(offsetDue reminderLeadMinutes cfg.windowForwardMinutes diffMinutes) then st
  else
    let st1 := { st with hadDueByOffset := true }
    let dispatchKey := mkDispatchKey taskId isoStart reminderLeadMinutes
      subscription.endpoint
    if wasReminderDispatched st1.dispatched dispatchKey then
      { st1 with alreadyKeys := st1.alreadyKeys ++ [dispatchKey] }
    else
      let st2 := { st1 with attemptedKeys := st1.attemptedKeys ++ [dispatchKey] }
      let sendResult := sendToSubscription cfg.hasVapid
        (cfg.transport subscription.endpoint) st2.store subscription
      let st3 := { st2 with store := sendResult.2 }
      if sendResult.1.ok then
        { st3 with
          dispatched := markReminderDispatched st3.dispatched dispatchKey,
          deliveredKeys := st3.deliveredKeys ++ [dispatchKey] }
      else st3

/-- The subscription loop as a fold over the target subscriptions. -/
def runSubLoop (cfg : SweepConfig) (taskId isoStart : String) (diffMinutes : Int) :
    List SubscriptionRow → LoopState → LoopState
  | [], st => st
  | subscription :: rest, st =>
      runSubLoop cfg taskId isoStart diffMinutes rest
        (loopStep cfg taskId isoStart diffMinutes st subscription)

/-- The initial loop state for a task: the stores as the task found them and
empty bookkeeping. -/
def initLoopState (dispatched0 : List String) (store0 : List SubscriptionRow) :
    LoopState :=
  { dispatched := dispatched0, store := store0, deliveredKeys := [],
    attemptedKeys := [], alreadyKeys := [], hadDueByOffset := false }

/-- What processing one task produced: a skip reason (or none when at least
one delivery succeeded), the loop bookkeeping, the final dedup store and
subscription store, whether the `notified = TRUE` update ran, and the
`diffMinutes` the window logic used. -/
structure TaskOutcome where
  skip : Option SkipReason
  deliveredKeys : List String
  attemptedKeys : List String
  alreadyKeys : List String
  dispatched : List String
  store : List SubscriptionRow
  notifiedSet : Bool
  diffUsed : Option Int

def skipOutcome (dispatched : List String) (store : List SubscriptionRow)
    (diffUsed : Option Int) (reason : SkipReason) : TaskOutcome :=
  { skip := some reason, deliveredKeys := [], attemptedKeys := [], alreadyKeys := [],
    dispatched := dispatched, store := store, notifiedSet := false,
    diffUsed := diffUsed }

/-- The window, audience, loop and flag-update stages for a task that passed
the eligibility gates (push.ts lines 620-710). -/
def processDue (cfg : SweepConfig) (subscriptions : List SubscriptionRow)
    (dispatched0 : List String) (store0 : List SubscriptionRow) (task : TaskRow)
    (taskStartUtc : StartUtc) (diffMinutes : Int) : TaskOutcome :=
  if diffMinutes < 0 ∨ 45 < diffMinutes then
    skipOutcome dispatched0 store0 (some diffMinutes) .outside_window
  else
    let audienceChildren := getTaskAudienceChildren task
    let taskChildNames := normalizeTaskChildNames task.child
    let targetSubscriptions := subscriptions.filter
      (isTargetSubscription cfg audienceChildren taskChildNames)
    if targetSubscriptions.isEmpty then
      skipOutcome dispatched0 store0 (some diffMinutes) .no_audience_subscriptions
    else
      let finalSt := runSubLoop cfg task.id taskStartUtc.iso diffMinutes
        targetSubscriptions (initLoopState dispatched0 store0)
      if !finalSt.hadDueByOffset then
        { skip := some .offset_not_due, deliveredKeys := finalSt.deliveredKeys,
          attemptedKeys := finalSt.attemptedKeys, alreadyKeys := finalSt.alreadyKeys,
          dispatched := finalSt.dispatched, store := finalSt.store,
          notifiedSet := false, diffUsed := some diffMinutes }
      else if 0 < finalSt.deliveredKeys.length then
        { skip := none, deliveredKeys := finalSt.deliveredKeys,
          attemptedKeys := finalSt.attemptedKeys, alreadyKeys := finalSt.alreadyKeys,
          dispatched := finalSt.dispatched, store := finalSt.store,
          notifiedSet := true, diffUsed := some diffMinutes }
      else
        { skip := some .delivery_failed, deliveredKeys := finalSt.deliveredKeys,
          attemptedKeys := finalSt.attemptedKeys, alreadyKeys := finalSt.alreadyKeys,
          dispatched := finalSt.dispatched, store := finalSt.store,
          notifiedSet := false, diffUsed := some diffMinutes }

/-- Processing of one task of the sweep (push.ts lines 575-710). -/
def processTask (cfg : SweepConfig) (subscriptions : List SubscriptionRow)
    (dispatched0 : List String) (store0 : List SubscriptionRow)
    (task : TaskRow) : TaskOutcome :=
  match taskEligibility cfg task with
  | .error reason => skipOutcome dispatched0 store0 none reason
  | .ok (taskStartUtc, diffMinutes) =>
      processDue cfg subscriptions dispatched0 store0 task taskStartUtc diffMinutes

/-- The persistent state the sweep reads and writes: the `family_schedule`
rows, the `push_subscriptions` rows, and the `push_reminder_dispatches`
keys. -/
structure SweepState where
  taskStore : List TaskRow
  subStore : List SubscriptionRow
  dispatched : List String

/-- The task load of push.ts lines 539-557: only rows with
`send_notification` coalescing to true, `completed` coalescing to false and
`notified` coalescing to false are scanned. -/
def loadTasks (store : List TaskRow) : List TaskRow :=
  store.filter (fun t =>
    (t.send_notification.getD true) && !(t.completed.getD false) &&
      !(t.notified.getD false))

/-- The `UPDATE family_schedule SET notified = TRUE WHERE id = ...` of
push.ts lines 699-704. -/
def setNotified (store : List TaskRow) (taskId : String) : List TaskRow :=
  store.map (fun t => if t.id = taskId then { t with notified := some true } else t)

/-- The task loop of the sweep, threading the task store, the subscription
store and the dedup store, and logging each task's outcome. -/
def sweepAux (cfg : SweepConfig) (subscriptions : List SubscriptionRow) :
    List TaskRow → SweepState → List (String × TaskOutcome) →
      SweepState × List (String × TaskOutcome)
  | [], st, log => (st, log)
  | task :: rest, st, log =>
      let out := processTask cfg subscriptions st.dispatched st.subStore task
      let st' : SweepState :=
        { taskStore := if out.notifiedSet then setNotified st.taskStore task.id
            else st.taskStore,
          subStore := out.store,
          dispatched := out.dispatched }
      sweepAux cfg subscriptions rest st' (log ++ [(task.id, out)])

/-- The `sendUpcomingTaskReminders` (push.ts lines 497-734): snapshot the
subscription rows (returning immediately when there are none), load the
eligible tasks once, then process each task in order. -/
def sendUpcomingTaskReminders (cfg : SweepConfig) (s : SweepState) :
    SweepState × List (String × TaskOutcome) :=
  if s.subStore.isEmpty then (s, [])
  else sweepAux cfg s.subStore (loadTasks s.taskStore) s []

/-- The dispatch key the subscription loop builds for one subscription of a
task (push.ts line 660), with the lead-time already normalized. -/
def keyForSub (taskId isoStart : String) (subscription : SubscriptionRow) : String :=
  mkDispatchKey taskId isoStart
    (normalizeReminderLeadMinutes subscription.reminder_lead_minutes)
    subscription.endpoint

/-- Whether one subscription's fine window contains the task's
`diffMinutes` (push.ts lines 652-655). -/
def subDue (cfg : SweepConfig) (diffMinutes : Int)
    (subscription : SubscriptionRow) : Bool :=
  offsetDue (normalizeReminderLeadMinutes subscription.reminder_lead_minutes)
    cfg.windowForwardMinutes diffMinutes

/-- The task ids whose `notified` flag the sweep set, read off the log. -/
def notifiedIds (log : List (String × TaskOutcome)) : List String :=
  (log.filter (fun e => e.2.notifiedSet)).map (fun e => e.1)

/-- The sweep's `notified` updates as one batch over the task store. -/
def applyNotified (ids : List String) (store : List TaskRow) : List TaskRow :=
  store.map (fun t => if t.id ∈ ids then { t with notified := some true } else t)

/-! Concrete sample data used by the witnesses: the spec's walkthrough
scenario (a task at 2026-02-24 14:00 addressed to one child, one subscription
with lead-time 10, now = 2026-02-24T13:50:00Z, an all-success transport). -/

def sampleCfg : SweepConfig :=
  { windowForwardMinutes := 15, strictChildUserOnly := false, nowTz := none,
    nowUtcMs := 1771941000000, hasVapid := true, transport := fun _ => .success }

def sampleSub : SubscriptionRow :=
  ⟨"https://push.example/a", "p", "k", some "אלין", none, none, some 10⟩

def sampleTask : TaskRow :=
  ⟨"t1", "שיעור", "2026-02-24", "14:00", "alin", "lesson",
    none, none, none, none, none, none⟩

def sampleIso : String := "2026-02-24T14:00:00.000Z"

def sampleKey : String := keyForSub "t1" sampleIso sampleSub

lemma childNameSet_cases {s : String} (h : childNameSet s = true) :
    s = "רביד" ∨ s = "עמית" ∨ s = "אלין" := by
  simpa [childNameSet, childUserNames] using h

lemma parentNameSet_cases {s : String} (h : parentNameSet s = true) :
    s = "סיוון" ∨ s = "רועי" := by
  simpa [parentNameSet, parentUserNames] using h

lemma childNameSet_ne_empty {s : String} (h : childNameSet s = true) : ¬ s = "" := by
  rcases childNameSet_cases h with h' | h' | h' <;> subst h' <;> decide

lemma parentNameSet_ne_empty {s : String} (h : parentNameSet s = true) : ¬ s = "" := by
  rcases parentNameSet_cases h with h' | h' <;> subst h' <;> decide

lemma parent_not_child {s : String} (h : parentNameSet s = true) :
    ¬ childNameSet s = true := by
  rcases parentNameSet_cases h with h' | h' <;> subst h' <;> decide

lemma stringDataInj {a b : String} (h : a.data = b.data) : a = b := by
  cases a; cases b; exact congrArg String.mk h

lemma colonData : (":" : String).data = [':'] := rfl

lemma lead5data : (toString (5 : Int)).data = ['5'] := by decide

lemma lead10data : (toString (10 : Int)).data = ['1', '0'] := by decide

lemma lead15data : (toString (15 : Int)).data = ['1', '5'] := by decide

lemma lead30data : (toString (30 : Int)).data = ['3', '0'] := by decide

lemma mkDispatchKey_data (i s : String) (l : Int) (e : String) :
    (mkDispatchKey i s l e).data =
      i.data ++ ':' :: (s.data ++ ':' :: ((toString l).data ++ ':' :: e.data)) := by
  simp [mkDispatchKey, String.data_append, colonData]

/-- Two dispatch keys of the same task and start instant agree only when both
the (normalized) lead-time and the endpoint agree: the rendered lead-times
are colon-free digit strings from the fixed enumeration, so the colon-framed
slots cannot be confused. -/
lemma mkDispatchKey_lead_endpoint_inj (i s : String) {l1 l2 : Int} {e1 e2 : String}
    (m1 : l1 ∈ reminderLeadOptions) (m2 : l2 ∈ reminderLeadOptions)
    (h : mkDispatchKey i s l1 e1 = mkDispatchKey i s l2 e2) :
    l1 = l2 ∧ e1 = e2 := by
  have hd := congrArg String.data h
  rw [mkDispatchKey_data, mkDispatchKey_data] at hd
  have h1 := List.append_cancel_left hd
  injection h1 with _ h2
  have h3 := List.append_cancel_left h2
  injection h3 with _ h4
  simp only [reminderLeadOptions, List.mem_cons, List.not_mem_nil, or_false,
    List.mem_singleton] at m1 m2
  rcases m1 with rfl | rfl | rfl | rfl <;> rcases m2 with rfl | rfl | rfl | rfl <;>
      simp only [lead5data, lead10data, lead15data, lead30data,
        List.singleton_append, List.cons_append, List.nil_append] at h4 <;>
      simp at h4 <;>
    exact ⟨rfl, stringDataInj h4⟩

/-- A dispatch key determines the start-instant slot when task id, lead-time
and endpoint are fixed. -/
lemma mkDispatchKey_iso_inj (i : String) {s1 s2 : String} (l : Int) (e : String)
    (h : mkDispatchKey i s1 l e = mkDispatchKey i s2 l e) : s1 = s2 := by
  have hd := congrArg String.data h
  rw [mkDispatchKey_data, mkDispatchKey_data] at hd
  have h1 := List.append_cancel_left hd
  injection h1 with _ h2
  exact stringDataInj (List.append_cancel_right h2)

/-- A dispatch key determines the endpoint slot when task id, start instant
and lead-time are fixed. -/
lemma mkDispatchKey_ep_inj (i s : String) (l : Int) {e1 e2 : String}
    (h : mkDispatchKey i s l e1 = mkDispatchKey i s l e2) : e1 = e2 := by
  have hd := congrArg String.data h
  rw [mkDispatchKey_data, mkDispatchKey_data] at hd
  have h1 := List.append_cancel_left hd
  injection h1 with _ h2
  have h3 := List.append_cancel_left h2
  injection h3 with _ h4
  have h5 := List.append_cancel_left h4
  injection h5 with _ h6
  exact stringDataInj h6

lemma contains_iff_mem {l : List String} {a : String} :
    l.contains a = true ↔ a ∈ l := by
  simp

/-- One loop iteration takes exactly one of four shapes: not due, due but
already dispatched, due and delivered, or due and failed. -/
lemma loopStep_shape (cfg : SweepConfig) (tid iso : String) (d : Int)
    (st : LoopState) (sub : SubscriptionRow) :
    (subDue cfg d sub = false ∧ loopStep cfg tid iso d st sub = st)
    ∨ (subDue cfg d sub = true ∧ keyForSub tid iso sub ∈ st.dispatched ∧
        loopStep cfg tid iso d st sub =
          { st with
            hadDueByOffset := true
            alreadyKeys := st.alreadyKeys ++ [keyForSub tid iso sub] })
    ∨ (subDue cfg d sub = true ∧ keyForSub tid iso sub ∉ st.dispatched ∧
        (sendToSubscription cfg.hasVapid (cfg.transport sub.endpoint)
          st.store sub).1.ok = true ∧
        loopStep cfg tid iso d st sub =
          { dispatched := keyForSub tid iso sub :: st.dispatched,
            store := (sendToSubscription cfg.hasVapid (cfg.transport sub.endpoint)
              st.store sub).2,
            deliveredKeys := st.deliveredKeys ++ [keyForSub tid iso sub],
            attemptedKeys := st.attemptedKeys ++ [keyForSub tid iso sub],
            alreadyKeys := st.alreadyKeys,
            hadDueByOffset := true })
    ∨ (subDue cfg d sub = true ∧ keyForSub tid iso sub ∉ st.dispatched ∧
        (sendToSubscription cfg.hasVapid (cfg.transport sub.endpoint)
          st.store sub).1.ok = false ∧
        loopStep cfg tid iso d st sub =
          { st with
            hadDueByOffset := true
            attemptedKeys := st.attemptedKeys ++ [keyForSub tid iso sub]
            store := (sendToSubscription cfg.hasVapid (cfg.transport sub.endpoint)
              st.store sub).2 }) := by
  by_cases hdue : offsetDue (normalizeReminderLeadMinutes sub.reminder_lead_minutes)
      cfg.windowForwardMinutes d = true
  · by_cases hmem : mkDispatchKey tid iso
        (normalizeReminderLeadMinutes sub.reminder_lead_minutes) sub.endpoint ∈
        st.dispatched
    · refine Or.inr (Or.inl ⟨hdue, hmem, ?_⟩)
      have hc : wasReminderDispatched st.dispatched (mkDispatchKey tid iso
          (normalizeReminderLeadMinutes sub.reminder_lead_minutes) sub.endpoint) =
          true :=
        contains_iff_mem.mpr hmem
      simp only [loopStep, hdue, Bool.not_true, Bool.false_eq_true, if_false]
      rw [if_pos hc]
      rfl
    · by_cases hok : (sendToSubscription cfg.hasVapid (cfg.transport sub.endpoint)
          st.store sub).1.ok = true
      · refine Or.inr (Or.inr (Or.inl ⟨hdue, hmem, hok, ?_⟩))
        have hc : ¬ wasReminderDispatched st.dispatched (mkDispatchKey tid iso
            (normalizeReminderLeadMinutes sub.reminder_lead_minutes) sub.endpoint) =
            true :=
          fun h => hmem (contains_iff_mem.mp h)
        simp only [loopStep, hdue, Bool.not_true, Bool.false_eq_true, if_false]
        rw [if_neg hc, if_pos hok]
        have hmark : markReminderDispatched st.dispatched (mkDispatchKey tid iso
            (normalizeReminderLeadMinutes sub.reminder_lead_minutes) sub.endpoint) =
            mkDispatchKey tid iso
              (normalizeReminderLeadMinutes sub.reminder_lead_minutes) sub.endpoint ::
              st.dispatched := by
          unfold markReminderDispatched
          rw [if_neg (fun h => hmem (contains_iff_mem.mp h))]
        rw [hmark]
        rfl
      · refine Or.inr (Or.inr (Or.inr ⟨hdue, hmem, by simpa using hok, ?_⟩))
        have hc : ¬ wasReminderDispatched st.dispatched (mkDispatchKey tid iso
            (normalizeReminderLeadMinutes sub.reminder_lead_minutes) sub.endpoint) =
            true :=
          fun h => hmem (contains_iff_mem.mp h)
        simp only [loopStep, hdue, Bool.not_true, Bool.false_eq_true, if_false]
        rw [if_neg hc, if_neg hok]
        rfl
  · refine Or.inl ⟨by simpa using hdue, ?_⟩
    simp only [loopStep]
    rw [if_pos]
    simpa using hdue

lemma loopStep_attempted_mono (cfg : SweepConfig) (tid iso : String) (d : Int)
    (st : LoopState) (sub : SubscriptionRow) {k : String}
    (h : k ∈ st.attemptedKeys) :
    k ∈ (loopStep cfg tid iso d st sub).attemptedKeys := by
  rcases loopStep_shape cfg tid iso d st sub with ⟨_, he⟩ | ⟨_, _, he⟩ |
      ⟨_, _, _, he⟩ | ⟨_, _, _, he⟩ <;>
    rw [he] <;> simp [h]

lemma loopStep_dispatched_mono (cfg : SweepConfig) (tid iso : String) (d : Int)
    (st : LoopState) (sub : SubscriptionRow) {k : String}
    (h : k ∈ st.dispatched) :
    k ∈ (loopStep cfg tid iso d st sub).dispatched := by
  rcases loopStep_shape cfg tid iso d st sub with ⟨_, he⟩ | ⟨_, _, he⟩ |
      ⟨_, _, _, he⟩ | ⟨_, _, _, he⟩ <;>
    rw [he] <;> simp [h]

lemma loopStep_already_mono (cfg : SweepConfig) (tid iso : String) (d : Int)
    (st : LoopState) (sub : SubscriptionRow) {k : String}
    (h : k ∈ st.alreadyKeys) :
    k ∈ (loopStep cfg tid iso d st sub).alreadyKeys := by
  rcases loopStep_shape cfg tid iso d st sub with ⟨_, he⟩ | ⟨_, _, he⟩ |
      ⟨_, _, _, he⟩ | ⟨_, _, _, he⟩ <;>
    rw [he] <;> simp [h]

lemma runSubLoop_attempted_mono (cfg : SweepConfig) (tid iso : String) (d : Int) :
    ∀ (subs : List SubscriptionRow) (st : LoopState) {k : String},
      k ∈ st.attemptedKeys →
      k ∈ (runSubLoop cfg tid iso d subs st).attemptedKeys := by
  intro subs
  induction subs with
  | nil => intro st k h; exact h
  | cons sub rest ih =>
      intro st k h
      exact ih _ (loopStep_attempted_mono cfg tid iso d st sub h)

lemma runSubLoop_dispatched_mono (cfg : SweepConfig) (tid iso : String) (d : Int) :
    ∀ (subs : List SubscriptionRow) (st : LoopState) {k : String},
      k ∈ st.dispatched →
      k ∈ (runSubLoop cfg tid iso d subs st).dispatched := by
  intro subs
  induction subs with
  | nil => intro st k h; exact h
  | cons sub rest ih =>
      intro st k h
      exact ih _ (loopStep_dispatched_mono cfg tid iso d st sub h)

lemma runSubLoop_already_mono (cfg : SweepConfig) (tid iso : String) (d : Int) :
    ∀ (subs : List SubscriptionRow) (st : LoopState) {k : String},
      k ∈ st.alreadyKeys →
      k ∈ (runSubLoop cfg tid iso d subs st).alreadyKeys := by
  intro subs
  induction subs with
  | nil => intro st k h; exact h
  | cons sub rest ih =>
      intro st k h
      exact ih _ (loopStep_already_mono cfg tid iso d st sub h)

/-- The loop only ever adds the keys it delivered to the dedup store: the
final store holds a key iff it was already there or the key was delivered
during the run, and every newly delivered key was previously absent. -/
lemma runSubLoop_delta (cfg : SweepConfig) (tid iso : String) (d : Int) :
    ∀ (subs : List SubscriptionRow) (st : LoopState),
      ∃ new : List String,
        (runSubLoop cfg tid iso d subs st).deliveredKeys =
          st.deliveredKeys ++ new ∧
        (∀ k, k ∈ (runSubLoop cfg tid iso d subs st).dispatched ↔
          k ∈ st.dispatched ∨ k ∈ new) ∧
        (∀ k ∈ new, k ∉ st.dispatched) := by
  intro subs
  induction subs with
  | nil =>
      intro st
      exact ⟨[], by simp [runSubLoop], fun k => by simp [runSubLoop], by simp⟩
  | cons sub rest ih =>
      intro st
      have hstep : runSubLoop cfg tid iso d (sub :: rest) st =
          runSubLoop cfg tid iso d rest (loopStep cfg tid iso d st sub) := rfl
      obtain ⟨new, h1, h2, h3⟩ := ih (loopStep cfg tid iso d st sub)
      rcases loopStep_shape cfg tid iso d st sub with ⟨_, he⟩ | ⟨_, hmem, he⟩ |
        ⟨hdue, hmem, hok, he⟩ | ⟨_, hmem, hok, he⟩
      · rw [he] at h1 h2 h3
        refine ⟨new, ?_, ?_, h3⟩
        · rw [hstep, he]
          exact h1
        · intro k
          rw [hstep, he]
          exact h2 k
      · rw [he] at h1 h2 h3
        refine ⟨new, ?_, ?_, fun k hk => h3 k hk⟩
        · rw [hstep, he]
          exact h1
        · intro k
          rw [hstep, he]
          exact h2 k
      · rw [he] at h1 h2 h3
        refine ⟨keyForSub tid iso sub :: new, ?_, ?_, ?_⟩
        · rw [hstep, he, h1]
          simp
        · intro k
          rw [hstep, he, h2 k]
          simp only [List.mem_cons]
          tauto
        · intro k hk
          rcases List.mem_cons.mp hk with rfl | hk'
          · exact hmem
          · intro hkst
            exact h3 k hk' (List.mem_cons_of_mem _ hkst)
      · rw [he] at h1 h2 h3
        refine ⟨new, ?_, ?_, fun k hk => h3 k hk⟩
        · rw [hstep, he]
          exact h1
        · intro k
          rw [hstep, he]
          exact h2 k

/-- A key already present in the dedup store is never attempted. -/
lemma runSubLoop_no_attempt_of_dispatched (cfg : SweepConfig) (tid iso : String)
    (d : Int) :
    ∀ (subs : List SubscriptionRow) (st : LoopState) (k : String),
      k ∈ st.dispatched → k ∉ st.attemptedKeys →
      k ∉ (runSubLoop cfg tid iso d subs st).attemptedKeys := by
  intro subs
  induction subs with
  | nil => intro st k _ h2; exact h2
  | cons sub rest ih =>
      intro st k h1 h2
      rcases loopStep_shape cfg tid iso d st sub with ⟨_, he⟩ | ⟨_, hmem, he⟩ |
        ⟨_, hmem, hok, he⟩ | ⟨_, hmem, hok, he⟩
      · exact ih _ k (by rw [he]; exact h1) (by rw [he]; exact h2)
      · exact ih _ k (by rw [he]; exact h1) (by rw [he]; exact h2)
      · refine ih _ k (by rw [he]; exact List.mem_cons_of_mem _ h1) ?_
        rw [he]
        simp only [List.mem_append, List.mem_singleton]
        rintro (hk | rfl)
        · exact h2 hk
        · exact hmem h1
      · refine ih _ k (by rw [he]; exact h1) ?_
        rw [he]
        simp only [List.mem_append, List.mem_singleton]
        rintro (hk | rfl)
        · exact h2 hk
        · exact hmem h1

/-- Every attempted key is the key of some subscription of the list whose
fine window contained the diff. -/
lemma runSubLoop_attempt_src (cfg : SweepConfig) (tid iso : String) (d : Int) :
    ∀ (subs : List SubscriptionRow) (st : LoopState) (k : String),
      k ∈ (runSubLoop cfg tid iso d subs st).attemptedKeys →
      k ∈ st.attemptedKeys ∨
        ∃ sub ∈ subs, keyForSub tid iso sub = k ∧ subDue cfg d sub = true := by
  intro subs
  induction subs with
  | nil => intro st k h; exact Or.inl h
  | cons sub rest ih =>
      intro st k h
      rcases ih _ k h with hst | ⟨sub', hsub', hkey, hdue⟩
      · rcases loopStep_shape cfg tid iso d st sub with ⟨_, he⟩ | ⟨_, hmem, he⟩ |
          ⟨hdue, hmem, hok, he⟩ | ⟨hdue, hmem, hok, he⟩
        · rw [he] at hst
          exact Or.inl hst
        · rw [he] at hst
          exact Or.inl hst
        · rw [he] at hst
          simp only [List.mem_append, List.mem_singleton] at hst
          rcases hst with hk | rfl
          · exact Or.inl hk
          · exact Or.inr ⟨sub, List.mem_cons_self _ _, rfl, hdue⟩
        · rw [he] at hst
          simp only [List.mem_append, List.mem_singleton] at hst
          rcases hst with hk | rfl
          · exact Or.inl hk
          · exact Or.inr ⟨sub, List.mem_cons_self _ _, rfl, hdue⟩
      · exact Or.inr ⟨sub', List.mem_cons_of_mem _ hsub', hkey, hdue⟩

/-- A due subscription whose key is already in the dedup store is skipped
with the already-dispatched reason. -/
lemma runSubLoop_already_of_dispatched (cfg : SweepConfig) (tid iso : String)
    (d : Int) :
    ∀ (subs : List SubscriptionRow) (st : LoopState) (sub : SubscriptionRow),
      sub ∈ subs → subDue cfg d sub = true →
      keyForSub tid iso sub ∈ st.dispatched →
      keyForSub tid iso sub ∈ (runSubLoop cfg tid iso d subs st).alreadyKeys := by
  intro subs
  induction subs with
  | nil => intro st sub h; exact absurd h (List.not_mem_nil sub)
  | cons hd rest ih =>
      intro st sub hsub hdue hmem
      by_cases hhd : hd = sub
      · subst hhd
        rcases loopStep_shape cfg tid iso d st hd with ⟨hd1, he⟩ | ⟨_, _, he⟩ |
          ⟨_, hm, _, he⟩ | ⟨_, hm, _, he⟩
        · rw [hdue] at hd1
          exact absurd hd1 (by simp)
        · refine runSubLoop_already_mono cfg tid iso d rest _ ?_
          rw [he]
          simp
        · exact absurd hmem hm
        · exact absurd hmem hm
      · rcases List.mem_cons.mp hsub with heq | hrest
        · exact absurd heq.symm hhd
        · exact ih _ sub hrest hdue
            (loopStep_dispatched_mono cfg tid iso d st hd hmem)

/-- A due subscription whose key is absent, and whose key no other listed
subscription shares, gets a delivery attempt. -/
lemma runSubLoop_attempt_of_due (cfg : SweepConfig) (tid iso : String) (d : Int) :
    ∀ (subs : List SubscriptionRow) (st : LoopState) (sub : SubscriptionRow),
      sub ∈ subs →
      (∀ s' ∈ subs, keyForSub tid iso s' = keyForSub tid iso sub → s' = sub) →
      subDue cfg d sub = true →
      keyForSub tid iso sub ∉ st.dispatched →
      keyForSub tid iso sub ∈ (runSubLoop cfg tid iso d subs st).attemptedKeys := by
  intro subs
  induction subs with
  | nil => intro st sub h; exact absurd h (List.not_mem_nil sub)
  | cons hd rest ih =>
      intro st sub hsub hinj hdue hmem
      by_cases hhd : hd = sub
      · subst hhd
        rcases loopStep_shape cfg tid iso d st hd with ⟨hd1, he⟩ | ⟨_, hm, he⟩ |
          ⟨_, hm, _, he⟩ | ⟨_, hm, _, he⟩
        · rw [hdue] at hd1
          exact absurd hd1 (by simp)
        · exact absurd hm hmem
        · refine runSubLoop_attempted_mono cfg tid iso d rest _ ?_
          rw [he]
          simp
        · refine runSubLoop_attempted_mono cfg tid iso d rest _ ?_
          rw [he]
          simp
      · have hrest : sub ∈ rest := by
          rcases List.mem_cons.mp hsub with heq | hrest
          · exact absurd heq.symm hhd
          · exact hrest
        have hkne : keyForSub tid iso hd ≠ keyForSub tid iso sub := by
          intro hk
          exact hhd (hinj hd (List.mem_cons_self _ _) hk)
        have hinj' : ∀ s' ∈ rest, keyForSub tid iso s' = keyForSub tid iso sub →
            s' = sub :=
          fun s' hs' hk => hinj s' (List.mem_cons_of_mem _ hs') hk
        refine ih _ sub hrest hinj' hdue ?_
        rcases loopStep_shape cfg tid iso d st hd with ⟨_, he⟩ | ⟨_, hm, he⟩ |
          ⟨_, hm, _, he⟩ | ⟨_, hm, _, he⟩
        · rw [he]; exact hmem
        · rw [he]; exact hmem
        · rw [he]
          simp only [List.mem_cons]
          rintro (hk | hk)
          · exact hkne hk.symm
          · exact hmem hk
        · rw [he]; exact hmem

/-- Delivered keys are never repeated within one loop run: each delivery
inserts its key before the next subscription is examined. -/
lemma runSubLoop_delivered_nodup (cfg : SweepConfig) (tid iso : String) (d : Int) :
    ∀ (subs : List SubscriptionRow) (st : LoopState),
      st.deliveredKeys.Nodup → (∀ k ∈ st.deliveredKeys, k ∈ st.dispatched) →
      (runSubLoop cfg tid iso d subs st).deliveredKeys.Nodup := by
  intro subs
  induction subs with
  | nil => intro st h _; exact h
  | cons sub rest ih =>
      intro st hnd hsubset
      rcases loopStep_shape cfg tid iso d st sub with ⟨_, he⟩ | ⟨_, hmem, he⟩ |
        ⟨_, hmem, hok, he⟩ | ⟨_, hmem, hok, he⟩
      · exact ih _ (by rw [he]; exact hnd) (by rw [he]; exact hsubset)
      · exact ih _ (by rw [he]; exact hnd) (by rw [he]; exact hsubset)
      · refine ih _ ?_ ?_
        · rw [he]
          simp only [List.nodup_append, List.nodup_cons, List.nodup_nil,
            List.disjoint_singleton]
          exact ⟨hnd, by simp, fun hk => hmem (hsubset _ hk)⟩
        · rw [he]
          intro k hk
          simp only [List.mem_append, List.mem_singleton, List.mem_cons,
            List.not_mem_nil, or_false] at hk
          simp only [List.mem_cons]
          rcases hk with hk | rfl
          · exact Or.inr (hsubset k hk)
          · exact Or.inl rfl
      · exact ih _ (by rw [he]; exact hnd) (by rw [he]; exact hsubset)

/-- With a configured key pair and an all-success transport, every due
subscription's key ends up recorded. -/
lemma runSubLoop_success_records (cfg : SweepConfig) (tid iso : String) (d : Int)
    (hv : cfg.hasVapid = true) (hT : ∀ e, cfg.transport e = .success) :
    ∀ (subs : List SubscriptionRow) (st : LoopState) (sub : SubscriptionRow),
      sub ∈ subs → subDue cfg d sub = true →
      keyForSub tid iso sub ∈ (runSubLoop cfg tid iso d subs st).dispatched := by
  intro subs
  induction subs with
  | nil => intro st sub h; exact absurd h (List.not_mem_nil sub)
  | cons hd rest ih =>
      intro st sub hsub hdue
      by_cases hhd : hd = sub
      · subst hhd
        rcases loopStep_shape cfg tid iso d st hd with ⟨hd1, he⟩ | ⟨_, hm, he⟩ |
          ⟨_, hm, _, he⟩ | ⟨_, hm, hok, he⟩
        · rw [hdue] at hd1
          exact absurd hd1 (by simp)
        · refine runSubLoop_dispatched_mono cfg tid iso d rest _ ?_
          rw [he]
          exact hm
        · refine runSubLoop_dispatched_mono cfg tid iso d rest _ ?_
          rw [he]
          exact List.mem_cons_self _ _
        · rw [hv, hT hd.endpoint] at hok
          simp [sendToSubscription] at hok
      · rcases List.mem_cons.mp hsub with heq | hrest
        · exact absurd heq.symm hhd
        · exact ih _ sub hrest hdue

/-- When every due subscription's key is already recorded, a loop run
delivers nothing new. -/
lemma runSubLoop_no_new_delivery (cfg : SweepConfig) (tid iso : String) (d : Int) :
    ∀ (subs : List SubscriptionRow) (st : LoopState),
      (∀ sub ∈ subs, subDue cfg d sub = true →
        keyForSub tid iso sub ∈ st.dispatched) →
      (runSubLoop cfg tid iso d subs st).deliveredKeys = st.deliveredKeys := by
  intro subs
  induction subs with
  | nil => intro st _; rfl
  | cons hd rest ih =>
      intro st hall
      rcases loopStep_shape cfg tid iso d st hd with ⟨_, he⟩ | ⟨_, hm, he⟩ |
        ⟨hdue, hm, hok, he⟩ | ⟨hdue, hm, hok, he⟩
      · rw [show runSubLoop cfg tid iso d (hd :: rest) st =
            runSubLoop cfg tid iso d rest (loopStep cfg tid iso d st hd) from rfl,
          he]
        exact ih st (fun sub hs hd' => hall sub (List.mem_cons_of_mem _ hs) hd')
      · have hres := ih (loopStep cfg tid iso d st hd) (fun sub hs hd' => by
          rw [he]
          exact hall sub (List.mem_cons_of_mem _ hs) hd')
        rw [show runSubLoop cfg tid iso d (hd :: rest) st =
            runSubLoop cfg tid iso d rest (loopStep cfg tid iso d st hd) from rfl,
          hres, he]
      · exact absurd (hall hd (List.mem_cons_self _ _) hdue) hm
      · exact absurd (hall hd (List.mem_cons_self _ _) hdue) hm

lemma normalizeReminderLeadMinutes_mem (v : Option Int) :
    normalizeReminderLeadMinutes v ∈ reminderLeadOptions := by
  have hiff : ∀ n : Int,
      reminderLeadOptions.contains n = true ↔ n ∈ reminderLeadOptions := by
    intro n
    simp [reminderLeadOptions]
  have hsome : ∀ n : Int, normalizeReminderLeadMinutes (some n) =
      if reminderLeadOptions.contains n then n else defaultReminderLeadMinutes :=
    fun _ => rfl
  rcases v with _ | n
  · decide
  · by_cases hc : reminderLeadOptions.contains n = true
    · rw [hsome, if_pos hc]
      exact (hiff n).1 hc
    · rw [hsome, if_neg hc]
      decide

lemma offsetDue_iff (L wf d : Int) :
    offsetDue L wf d = true ↔ (L ≤ d ∧ d ≤ L + wf) := by
  simp only [offsetDue, Bool.not_eq_true', Bool.or_eq_false_iff,
    decide_eq_false_iff_not, not_lt]

/-- In the non-degenerate window/audience case the loop's attempted keys are
the task outcome's attempted keys, whatever the delivery results were. -/
lemma processDue_attempted (cfg : SweepConfig) (subscriptions : List SubscriptionRow)
    (dispatched0 : List String) (store0 : List SubscriptionRow) (task : TaskRow)
    (start : StartUtc) (d : Int)
    (hc : ¬ (d < 0 ∨ 45 < d))
    (hne : subscriptions.filter (isTargetSubscription cfg
      (getTaskAudienceChildren task) (normalizeTaskChildNames task.child)) ≠ []) :
    (processDue cfg subscriptions dispatched0 store0 task start d).attemptedKeys =
      (runSubLoop cfg task.id start.iso d
        (subscriptions.filter (isTargetSubscription cfg
          (getTaskAudienceChildren task) (normalizeTaskChildNames task.child)))
        (initLoopState dispatched0 store0)).attemptedKeys := by
  have hempty : (subscriptions.filter (isTargetSubscription cfg
      (getTaskAudienceChildren task) (normalizeTaskChildNames task.child))).isEmpty
      = false := by
    simpa [List.isEmpty_iff] using hne
  simp only [processDue, hempty, Bool.false_eq_true, if_false]
  rw [if_neg hc]
  split_ifs <;> rfl

/-- C1: for every dispatch key in the sweep's per-task subscription loop,
existence is checked before any delivery attempt — a key already recorded is
never attempted and, when due, is skipped as already dispatched; the dedup
store afterwards holds a key iff it was already there or a delivery for it
succeeded in the run (so failed deliveries leave no record); inserting an
existing key is a silent no-op; no key is delivered twice within a run; and
rerunning the same loop from the resulting store with a successful transport
delivers nothing more, so at most one dispatch is recorded and one delivery
accounted per key. -/
theorem claim_C1_dedup_protocol (cfg : SweepConfig) (tid iso : String) (d : Int)
    (subs : List SubscriptionRow) (s0 : List String)
    (store0 : List SubscriptionRow) (k : String) :
    (∀ (s : List String) (key : String), key ∈ s →
      markReminderDispatched s key = s)
    ∧ (k ∈ s0 →
        k ∉ (runSubLoop cfg tid iso d subs (initLoopState s0 store0)).attemptedKeys)
    ∧ (∀ sub ∈ subs, subDue cfg d sub = true → keyForSub tid iso sub ∈ s0 →
        keyForSub tid iso sub ∈
          (runSubLoop cfg tid iso d subs (initLoopState s0 store0)).alreadyKeys)
    ∧ (k ∈ (runSubLoop cfg tid iso d subs (initLoopState s0 store0)).dispatched ↔
        k ∈ s0 ∨
          k ∈ (runSubLoop cfg tid iso d subs (initLoopState s0 store0)).deliveredKeys)
    ∧ (runSubLoop cfg tid iso d subs (initLoopState s0 store0)).deliveredKeys.Nodup
    ∧ (cfg.hasVapid = true → (∀ e, cfg.transport e = .success) →
        (runSubLoop cfg tid iso d subs
          (initLoopState
            (runSubLoop cfg tid iso d subs (initLoopState s0 store0)).dispatched
            (runSubLoop cfg tid iso d subs
              (initLoopState s0 store0)).store)).deliveredKeys = []) := by
  refine ⟨?_, ?_, ?_, ?_, ?_, ?_⟩
  · intro s key hk
    unfold markReminderDispatched
    rw [if_pos (contains_iff_mem.mpr hk)]
  · intro hk
    exact runSubLoop_no_attempt_of_dispatched cfg tid iso d subs _ k hk
      (by simp [initLoopState])
  · intro sub hsub hdue hk
    exact runSubLoop_already_of_dispatched cfg tid iso d subs _ sub hsub hdue hk
  · obtain ⟨new, h1, h2, h3⟩ :=
      runSubLoop_delta cfg tid iso d subs (initLoopState s0 store0)
    rw [h1, h2 k]
    simp [initLoopState]
  · exact runSubLoop_delivered_nodup cfg tid iso d subs _
      (by simp [initLoopState]) (by simp [initLoopState])
  · intro hv hT
    have hall : ∀ sub ∈ subs, subDue cfg d sub = true →
        keyForSub tid iso sub ∈
          (initLoopState
            (runSubLoop cfg tid iso d subs (initLoopState s0 store0)).dispatched
            (runSubLoop cfg tid iso d subs
              (initLoopState s0 store0)).store).dispatched := by
      intro sub hsub hdue
      exact runSubLoop_success_records cfg tid iso d hv hT subs _ sub hsub hdue
    have := runSubLoop_no_new_delivery cfg tid iso d subs _ hall
    simpa [initLoopState] using this

/-- Witness for C1 at a concrete loop: one subscription due at lead 10 with
diff 10, an all-success transport; run once from a store holding the key and
once from the empty store. -/
theorem claim_C1_dedup_protocol_witness :
    markReminderDispatched [sampleKey] sampleKey = [sampleKey]
    ∧ sampleKey ∉ (runSubLoop sampleCfg "t1" sampleIso 10 [sampleSub]
        (initLoopState [sampleKey] [sampleSub])).attemptedKeys
    ∧ keyForSub "t1" sampleIso sampleSub ∈
        (runSubLoop sampleCfg "t1" sampleIso 10 [sampleSub]
          (initLoopState [sampleKey] [sampleSub])).alreadyKeys
    ∧ (sampleKey ∈ (runSubLoop sampleCfg "t1" sampleIso 10 [sampleSub]
          (initLoopState [] [sampleSub])).dispatched ↔
        sampleKey ∈ ([] : List String) ∨
          sampleKey ∈ (runSubLoop sampleCfg "t1" sampleIso 10 [sampleSub]
            (initLoopState [] [sampleSub])).deliveredKeys)
    ∧ (runSubLoop sampleCfg "t1" sampleIso 10 [sampleSub]
        (initLoopState [] [sampleSub])).deliveredKeys.Nodup
    ∧ (runSubLoop sampleCfg "t1" sampleIso 10 [sampleSub]
        (initLoopState
          (runSubLoop sampleCfg "t1" sampleIso 10 [sampleSub]
            (initLoopState [] [sampleSub])).dispatched
          (runSubLoop sampleCfg "t1" sampleIso 10 [sampleSub]
            (initLoopState [] [sampleSub])).store)).deliveredKeys = [] := by
  have h1 := claim_C1_dedup_protocol sampleCfg "t1" sampleIso 10 [sampleSub]
    [sampleKey] [sampleSub] sampleKey
  have h2 := claim_C1_dedup_protocol sampleCfg "t1" sampleIso 10 [sampleSub]
    [] [sampleSub] sampleKey
  refine ⟨h1.1 [sampleKey] sampleKey (by decide), ?_, ?_, h2.2.2.2.1, h2.2.2.2.2.1,
    h2.2.2.2.2.2 rfl (fun _ => rfl)⟩
  · exact h1.2.1 (by decide)
  · exact h1.2.2.1 sampleSub (by decide) (by decide) (by decide)

lemma processTask_eq_processDue (cfg : SweepConfig)
    (subscriptions : List SubscriptionRow) (dispatched0 : List String)
    (store0 : List SubscriptionRow) (task : TaskRow) (start : StartUtc) (d : Int)
    (hel : taskEligibility cfg task = .ok (start, d)) :
    processTask cfg subscriptions dispatched0 store0 task =
      processDue cfg subscriptions dispatched0 store0 task start d := by
  unfold processTask
  rw [hel]

lemma processDue_outside (cfg : SweepConfig) (subscriptions : List SubscriptionRow)
    (dispatched0 : List String) (store0 : List SubscriptionRow) (task : TaskRow)
    (start : StartUtc) (d : Int) (hc : d < 0 ∨ 45 < d) :
    processDue cfg subscriptions dispatched0 store0 task start d =
      skipOutcome dispatched0 store0 (some d) .outside_window := by
  unfold processDue
  rw [if_pos hc]

/-- C2: under the default (non-strict) invocation, for a gate-passing task
and an audience subscription with normalized lead-time L, a delivery is
attempted iff the diff lies in both the coarse window 0..45 and the fine
window L..L+windowForwardMinutes and no dispatch record exists; a diff
outside the coarse window skips the whole task; and the fine window is
inclusive at both ends. -/
theorem claim_C2_window_rules (cfg : SweepConfig) (task : TaskRow)
    (subscriptions : List SubscriptionRow) (dispatched0 : List String)
    (store0 : List SubscriptionRow) (sub : SubscriptionRow) (start : StartUtc)
    (d : Int)
    (hel : taskEligibility cfg task = .ok (start, d))
    (hstrict : cfg.strictChildUserOnly = false)
    (hsub : sub ∈ subscriptions)
    (haud : shouldSubscriptionReceiveTask sub (getTaskAudienceChildren task) = true)
    (hnodup : (subscriptions.map SubscriptionRow.endpoint).Nodup) :
    (keyForSub task.id start.iso sub ∈
        (processTask cfg subscriptions dispatched0 store0 task).attemptedKeys ↔
      (0 ≤ d ∧ d ≤ 45 ∧
        normalizeReminderLeadMinutes sub.reminder_lead_minutes ≤ d ∧
        d ≤ normalizeReminderLeadMinutes sub.reminder_lead_minutes +
          cfg.windowForwardMinutes ∧
        keyForSub task.id start.iso sub ∉ dispatched0))
    ∧ ((d < 0 ∨ 45 < d) →
        processTask cfg subscriptions dispatched0 store0 task =
          skipOutcome dispatched0 store0 (some d) .outside_window)
    ∧ (∀ L wf : Int, L ∈ reminderLeadOptions → 0 ≤ wf → wf ≤ 15 →
        offsetDue L wf L = true ∧ offsetDue L wf (L - 1) = false ∧
        offsetDue L wf (L + wf) = true ∧ offsetDue L wf (L + wf + 1) = false ∧
        0 ≤ L ∧ L ≤ 45 ∧ L + wf ≤ 45) := by
  have hPD := processTask_eq_processDue cfg subscriptions dispatched0 store0 task
    start d hel
  refine ⟨?_, ?_, ?_⟩
  · by_cases hc : d < 0 ∨ 45 < d
    · rw [hPD, processDue_outside cfg subscriptions dispatched0 store0 task start d hc]
      constructor
      · intro h
        exact absurd h (List.not_mem_nil _)
      · rintro ⟨h0, h45, -⟩
        rcases hc with hc | hc <;> omega
    · have htgt : isTargetSubscription cfg (getTaskAudienceChildren task)
          (normalizeTaskChildNames task.child) sub = true := by
        simp [isTargetSubscription, hstrict, haud]
      have hmemt : sub ∈ subscriptions.filter (isTargetSubscription cfg
          (getTaskAudienceChildren task) (normalizeTaskChildNames task.child)) :=
        List.mem_filter.mpr ⟨hsub, htgt⟩
      have hne : subscriptions.filter (isTargetSubscription cfg
          (getTaskAudienceChildren task) (normalizeTaskChildNames task.child)) ≠ [] :=
        List.ne_nil_of_mem hmemt
      have hatt := processDue_attempted cfg subscriptions dispatched0 store0 task
        start d hc hne
      have hinj0 := List.inj_on_of_nodup_map hnodup
      have hcoarse : 0 ≤ d ∧ d ≤ 45 := by
        push_neg at hc
        omega
      rw [hPD, hatt]
      constructor
      · intro h
        have hnot₀ : keyForSub task.id start.iso sub ∉ dispatched0 := by
          intro hk
          exact runSubLoop_no_attempt_of_dispatched cfg task.id start.iso d _ _ _
            (by simpa [initLoopState] using hk) (by simp [initLoopState]) h
        rcases runSubLoop_attempt_src cfg task.id start.iso d _ _ _ h with
          h0 | ⟨sub', hsub', hkey, hdue⟩
        · simp [initLoopState] at h0
        · have hkey' : mkDispatchKey task.id start.iso
              (normalizeReminderLeadMinutes sub'.reminder_lead_minutes)
              sub'.endpoint =
              mkDispatchKey task.id start.iso
                (normalizeReminderLeadMinutes sub.reminder_lead_minutes)
                sub.endpoint := hkey
          have hle := mkDispatchKey_lead_endpoint_inj task.id start.iso
            (normalizeReminderLeadMinutes_mem sub'.reminder_lead_minutes)
            (normalizeReminderLeadMinutes_mem sub.reminder_lead_minutes) hkey'
          have hdue' : offsetDue
              (normalizeReminderLeadMinutes sub.reminder_lead_minutes)
              cfg.windowForwardMinutes d = true := by
            have hthis : offsetDue
                (normalizeReminderLeadMinutes sub'.reminder_lead_minutes)
                cfg.windowForwardMinutes d = true := hdue
            rw [hle.1] at hthis
            exact hthis
          obtain ⟨hL, hR⟩ := (offsetDue_iff _ _ _).1 hdue'
          exact ⟨hcoarse.1, hcoarse.2, hL, hR, hnot₀⟩
      · rintro ⟨-, -, hL, hR, hnot₀⟩
        refine runSubLoop_attempt_of_due cfg task.id start.iso d _ _ sub hmemt
          ?_ ?_ ?_
        · intro s' hs' hk
          have hkey' : mkDispatchKey task.id start.iso
              (normalizeReminderLeadMinutes s'.reminder_lead_minutes)
              s'.endpoint =
              mkDispatchKey task.id start.iso
                (normalizeReminderLeadMinutes sub.reminder_lead_minutes)
                sub.endpoint := hk
          have hle := mkDispatchKey_lead_endpoint_inj task.id start.iso
            (normalizeReminderLeadMinutes_mem s'.reminder_lead_minutes)
            (normalizeReminderLeadMinutes_mem sub.reminder_lead_minutes) hkey'
          exact hinj0 (List.mem_filter.mp hs').1 hsub hle.2
        · exact (offsetDue_iff _ _ _).2 ⟨hL, hR⟩
        · simpa [initLoopState] using hnot₀
  · intro hc
    rw [hPD]
    exact processDue_outside cfg subscriptions dispatched0 store0 task start d hc
  · intro L wf hL h0 h15
    have hfalse : ∀ x : Int, ¬ (L ≤ x ∧ x ≤ L + wf) → offsetDue L wf x = false := by
      intro x hx
      cases hb : offsetDue L wf x
      · rfl
      · exact absurd ((offsetDue_iff L wf x).1 hb) hx
    have hmem : L = 5 ∨ L = 10 ∨ L = 15 ∨ L = 30 := by
      simpa [reminderLeadOptions] using hL
    refine ⟨(offsetDue_iff L wf L).2 ⟨le_refl L, by omega⟩,
      hfalse (L - 1) (by omega),
      (offsetDue_iff L wf (L + wf)).2 ⟨by omega, le_refl _⟩,
      hfalse (L + wf + 1) (by omega), ?_, ?_, ?_⟩
    · rcases hmem with rfl | rfl | rfl | rfl <;> omega
    · rcases hmem with rfl | rfl | rfl | rfl <;> omega
    · rcases hmem with rfl | rfl | rfl | rfl <;> omega

/-- Witness for C2: the spec's scenario (diff 10, lead 10, forward window 15,
no prior record) satisfies the attempted-iff characterization, and the
boundary facts hold at lead 10 with forward window 15. -/
theorem claim_C2_window_rules_witness :
    (keyForSub sampleTask.id (StartUtc.mk sampleIso 1771941600000).iso sampleSub ∈
        (processTask sampleCfg [sampleSub] [] [sampleSub]
          sampleTask).attemptedKeys ↔
      (0 ≤ (10 : Int) ∧ (10 : Int) ≤ 45 ∧
        normalizeReminderLeadMinutes sampleSub.reminder_lead_minutes ≤ 10 ∧
        (10 : Int) ≤ normalizeReminderLeadMinutes sampleSub.reminder_lead_minutes +
          sampleCfg.windowForwardMinutes ∧
        keyForSub sampleTask.id (StartUtc.mk sampleIso 1771941600000).iso sampleSub ∉
          ([] : List String)))
    ∧ (offsetDue 10 15 10 = true ∧ offsetDue 10 15 (10 - 1) = false ∧
        offsetDue 10 15 (10 + 15) = true ∧ offsetDue 10 15 (10 + 15 + 1) = false ∧
        (0 : Int) ≤ 10 ∧ (10 : Int) ≤ 45 ∧ (10 : Int) + 15 ≤ 45) := by
  have h := claim_C2_window_rules sampleCfg sampleTask [sampleSub] [] [sampleSub]
    sampleSub (StartUtc.mk sampleIso 1771941600000) 10
    (by rfl) (by decide) (by decide) (by decide) (by decide)
  exact ⟨h.1, h.2.2 10 15 (by decide) (by decide) (by decide)⟩

lemma processDue_no_audience (cfg : SweepConfig)
    (subscriptions : List SubscriptionRow) (dispatched0 : List String)
    (store0 : List SubscriptionRow) (task : TaskRow) (start : StartUtc) (d : Int)
    (hc : ¬ (d < 0 ∨ 45 < d))
    (hfil : subscriptions.filter (isTargetSubscription cfg
      (getTaskAudienceChildren task) (normalizeTaskChildNames task.child)) = []) :
    processDue cfg subscriptions dispatched0 store0 task start d =
      skipOutcome dispatched0 store0 (some d) .no_audience_subscriptions := by
  simp only [processDue, hfil]
  rw [if_neg hc]
  rfl

/-- C8: a completed task never triggers a delivery attempt — it is rejected
before any window or audience logic; a task with `send_notification = false`
never triggers an attempt either; and a gate-passing task whose recipient
encoding resolves to an empty audience is skipped with the distinct
no-audience reason (the model is a total function, so no error escapes the
sweep). -/
theorem claim_C8_suppression (cfg : SweepConfig)
    (subscriptions : List SubscriptionRow) (dispatched0 : List String)
    (store0 : List SubscriptionRow) (task : TaskRow) :
    (task.completed.getD false = true →
      processTask cfg subscriptions dispatched0 store0 task =
        skipOutcome dispatched0 store0 none .completed)
    ∧ (task.send_notification.getD true = false →
        (processTask cfg subscriptions dispatched0 store0 task).attemptedKeys = []
        ∧ (processTask cfg subscriptions dispatched0 store0 task).deliveredKeys = []
        ∧ (processTask cfg subscriptions dispatched0 store0 task).notifiedSet = false)
    ∧ (∀ start d, taskEligibility cfg task = .ok (start, d) →
        ¬ (d < 0 ∨ 45 < d) → getTaskAudienceChildren task = [] →
        processTask cfg subscriptions dispatched0 store0 task =
          skipOutcome dispatched0 store0 (some d) .no_audience_subscriptions) := by
  refine ⟨?_, ?_, ?_⟩
  · intro hcomp
    have hel : taskEligibility cfg task = .error .completed := by
      unfold taskEligibility
      rw [if_pos hcomp]
    unfold processTask
    rw [hel]
  · intro hsn
    have hel : ∃ r, taskEligibility cfg task = .error r := by
      unfold taskEligibility
      by_cases h1 : task.completed.getD false = true
      · rw [if_pos h1]
        exact ⟨_, rfl⟩
      · rw [if_neg h1]
        by_cases h2 : task.notified.getD false = true
        · rw [if_pos h2]
          exact ⟨_, rfl⟩
        · rw [if_neg h2, if_pos (by simp [hsn])]
          exact ⟨_, rfl⟩
    obtain ⟨r, hr⟩ := hel
    unfold processTask
    rw [hr]
    exact ⟨rfl, rfl, rfl⟩
  · intro start d hel hc haud
    rw [processTask_eq_processDue cfg subscriptions dispatched0 store0 task
      start d hel]
    refine processDue_no_audience cfg subscriptions dispatched0 store0 task
      start d hc (List.filter_eq_nil_iff.mpr ?_)
    intro sub _
    simp [isTargetSubscription, haud, shouldSubscriptionReceiveTask]

/-- Witness for C8: a completed task, a notifications-disabled task, and a
task addressed to an unrecognized recipient, each in the sample sweep. -/
theorem claim_C8_suppression_witness :
    processTask sampleCfg [sampleSub] [] [sampleSub]
      ⟨"t8a", "x", "2026-02-24", "14:00", "alin", "dog",
        none, some true, none, none, none, none⟩ =
      skipOutcome [] [sampleSub] none .completed
    ∧ ((processTask sampleCfg [sampleSub] [] [sampleSub]
        ⟨"t8b", "x", "2026-02-24", "14:00", "alin", "dog",
          none, none, none, some false, none, none⟩).attemptedKeys = []
      ∧ (processTask sampleCfg [sampleSub] [] [sampleSub]
        ⟨"t8b", "x", "2026-02-24", "14:00", "alin", "dog",
          none, none, none, some false, none, none⟩).deliveredKeys = []
      ∧ (processTask sampleCfg [sampleSub] [] [sampleSub]
        ⟨"t8b", "x", "2026-02-24", "14:00", "alin", "dog",
          none, none, none, some false, none, none⟩).notifiedSet = false)
    ∧ processTask sampleCfg [sampleSub] [] [sampleSub]
        ⟨"t8c", "x", "2026-02-24", "14:00", "zzz", "dog",
          none, none, none, none, none, none⟩ =
      skipOutcome [] [sampleSub] (some 10) .no_audience_subscriptions := by
  refine ⟨?_, ?_, ?_⟩
  · exact (claim_C8_suppression sampleCfg [sampleSub] [] [sampleSub]
      ⟨"t8a", "x", "2026-02-24", "14:00", "alin", "dog",
        none, some true, none, none, none, none⟩).1 (by decide)
  · exact (claim_C8_suppression sampleCfg [sampleSub] [] [sampleSub]
      ⟨"t8b", "x", "2026-02-24", "14:00", "alin", "dog",
        none, none, none, some false, none, none⟩).2.1 (by decide)
  · exact (claim_C8_suppression sampleCfg [sampleSub] [] [sampleSub]
      ⟨"t8c", "x", "2026-02-24", "14:00", "zzz", "dog",
        none, none, none, none, none, none⟩).2.2
      ⟨sampleIso, 1771941600000⟩ 10 (by rfl) (by decide) (by decide)

/-- C10: when the sweep runs with a time zone, a gate-passing task whose
parsed date key differs from the zone-local current date is skipped as a date
mismatch with no delivery attempt (so a task inside the reminder window but
after local midnight gets no reminder), and for a same-day task the diff the
window logic uses is the zone wall-clock minute-of-day difference, replacing
the UTC-based difference. -/
theorem claim_C10_timezone_gate (cfg : SweepConfig) (tzNow : TzNow)
    (subscriptions : List SubscriptionRow) (dispatched0 : List String)
    (store0 : List SubscriptionRow) (task : TaskRow) (start : StartUtc)
    (taskMinutes : Nat)
    (htz : cfg.nowTz = some tzNow)
    (hc : task.completed.getD false = false)
    (hn : task.notified.getD false = false)
    (hs : task.send_notification.getD true = true)
    (hstart : parseTaskStartUtc task.day task.time = some start)
    (htime : parseTimeToMinutes task.time = some taskMinutes) :
    (parseTaskDateKey task.day ≠ tzNow.dateKey →
      taskEligibility cfg task = .error .date_mismatch
      ∧ processTask cfg subscriptions dispatched0 store0 task =
          skipOutcome dispatched0 store0 none .date_mismatch)
    ∧ (parseTaskDateKey task.day = tzNow.dateKey → parseTaskDateKey task.day ≠ "" →
        taskEligibility cfg task =
          .ok (start, (taskMinutes : Int) - tzNow.minutes)) := by
  have hbase : taskEligibility cfg task =
      (if parseTaskDateKey task.day = "" ∨ parseTaskDateKey task.day ≠ tzNow.dateKey
       then .error .date_mismatch
       else .ok (start, (taskMinutes : Int) - tzNow.minutes)) := by
    unfold taskEligibility
    rw [if_neg (by simp [hc]), if_neg (by simp [hn]), if_neg (by simp [hs]),
      hstart, htime, htz]
  constructor
  · intro hne
    have hel : taskEligibility cfg task = .error .date_mismatch := by
      rw [hbase, if_pos (Or.inr hne)]
    refine ⟨hel, ?_⟩
    unfold processTask
    rw [hel]
  · intro heq hne
    rw [hbase, if_neg ?_]
    push_neg
    exact ⟨hne, heq⟩

/-- Witness for C10: with zone-now 2026-02-24 23:55 local, a task at
2026-02-25 00:05 has UTC diff 10 minutes (inside the window) yet is skipped
as a date mismatch, while a same-day task gets the wall-clock diff. -/
theorem claim_C10_timezone_gate_witness :
    Int.fdiv ((1771977900000 : Int) - 1771977300000) 60000 = 10
    ∧ parseTaskStartUtc "2026-02-25" "00:05" =
        some ⟨"2026-02-25T00:05:00.000Z", 1771977900000⟩
    ∧ taskEligibility
        { sampleCfg with
          nowTz := some ⟨"2026-02-24", 1435⟩
          nowUtcMs := 1771977300000 }
        ⟨"t10", "x", "2026-02-25", "00:05", "alin", "dog",
          none, none, none, none, none, none⟩ = .error .date_mismatch
    ∧ processTask
        { sampleCfg with
          nowTz := some ⟨"2026-02-24", 1435⟩
          nowUtcMs := 1771977300000 }
        [sampleSub] [] [sampleSub]
        ⟨"t10", "x", "2026-02-25", "00:05", "alin", "dog",
          none, none, none, none, none, none⟩ =
      skipOutcome [] [sampleSub] none .date_mismatch
    ∧ taskEligibility
        { sampleCfg with
          nowTz := some ⟨"2026-02-24", 1435⟩
          nowUtcMs := 1771977300000 }
        ⟨"t10b", "x", "2026-02-24", "23:59", "alin", "dog",
          none, none, none, none, none, none⟩ =
      .ok (⟨"2026-02-24T23:59:00.000Z", 1771977540000⟩, (1439 : Int) - 1435) := by
  have h := claim_C10_timezone_gate
    { sampleCfg with
      nowTz := some ⟨"2026-02-24", 1435⟩
      nowUtcMs := 1771977300000 }
    ⟨"2026-02-24", 1435⟩ [sampleSub] [] [sampleSub]
    ⟨"t10", "x", "2026-02-25", "00:05", "alin", "dog",
      none, none, none, none, none, none⟩
    ⟨"2026-02-25T00:05:00.000Z", 1771977900000⟩ 5
    rfl (by decide) (by decide) (by decide) (by rfl) (by rfl)
  have h2 := claim_C10_timezone_gate
    { sampleCfg with
      nowTz := some ⟨"2026-02-24", 1435⟩
      nowUtcMs := 1771977300000 }
    ⟨"2026-02-24", 1435⟩ [sampleSub] [] [sampleSub]
    ⟨"t10b", "x", "2026-02-24", "23:59", "alin", "dog",
      none, none, none, none, none, none⟩
    ⟨"2026-02-24T23:59:00.000Z", 1771977540000⟩ 1439
    rfl (by decide) (by decide) (by decide) (by rfl) (by rfl)
  have hmis := h.1 (by decide)
  exact ⟨by decide, by rfl, hmis.1, hmis.2, h2.2 (by decide) (by decide)⟩

lemma loopStep_hadDue_mono (cfg : SweepConfig) (tid iso : String) (d : Int)
    (st : LoopState) (sub : SubscriptionRow)
    (h : st.hadDueByOffset = true) :
    (loopStep cfg tid iso d st sub).hadDueByOffset = true := by
  rcases loopStep_shape cfg tid iso d st sub with ⟨_, he⟩ | ⟨_, _, he⟩ |
      ⟨_, _, _, he⟩ | ⟨_, _, _, he⟩ <;>
    simp [he, h]

lemma runSubLoop_hadDue_mono (cfg : SweepConfig) (tid iso : String) (d : Int) :
    ∀ (subs : List SubscriptionRow) (st : LoopState),
      st.hadDueByOffset = true →
      (runSubLoop cfg tid iso d subs st).hadDueByOffset = true := by
  intro subs
  induction subs with
  | nil => intro st h; exact h
  | cons sub rest ih =>
      intro st h
      exact ih _ (loopStep_hadDue_mono cfg tid iso d st sub h)

/-- A loop run that never found a due subscription delivered nothing. -/
lemma runSubLoop_not_due_delivered (cfg : SweepConfig) (tid iso : String) (d : Int) :
    ∀ (subs : List SubscriptionRow) (st : LoopState),
      (runSubLoop cfg tid iso d subs st).hadDueByOffset = false →
      (runSubLoop cfg tid iso d subs st).deliveredKeys = st.deliveredKeys := by
  intro subs
  induction subs with
  | nil => intro st _; rfl
  | cons sub rest ih =>
      intro st hfalse
      have hstep : runSubLoop cfg tid iso d (sub :: rest) st =
          runSubLoop cfg tid iso d rest (loopStep cfg tid iso d st sub) := rfl
      rcases loopStep_shape cfg tid iso d st sub with ⟨_, he⟩ | ⟨_, _, he⟩ |
        ⟨_, _, _, he⟩ | ⟨_, _, _, he⟩
      · rw [hstep, he]
        rw [hstep, he] at hfalse
        exact ih st hfalse
      all_goals
        exfalso
        rw [hstep, he] at hfalse
        rw [runSubLoop_hadDue_mono cfg tid iso d rest _ (by simp)] at hfalse
        exact Bool.true_eq_false.mp hfalse

/-- The orchestrator marks a task notified exactly when the loop delivered at
least one message for it. -/
lemma processDue_notified_iff (cfg : SweepConfig)
    (subscriptions : List SubscriptionRow) (dispatched0 : List String)
    (store0 : List SubscriptionRow) (task : TaskRow) (start : StartUtc) (d : Int) :
    ((processDue cfg subscriptions dispatched0 store0 task start d).notifiedSet =
        true ↔
      (processDue cfg subscriptions dispatched0 store0 task start d).deliveredKeys ≠
        []) := by
  by_cases h1 : d < 0 ∨ 45 < d
  · rw [processDue_outside cfg subscriptions dispatched0 store0 task start d h1]
    simp [skipOutcome]
  · by_cases h2 : subscriptions.filter (isTargetSubscription cfg
        (getTaskAudienceChildren task) (normalizeTaskChildNames task.child)) = []
    · rw [processDue_no_audience cfg subscriptions dispatched0 store0 task
        start d h1 h2]
      simp [skipOutcome]
    · have hempty : (subscriptions.filter (isTargetSubscription cfg
          (getTaskAudienceChildren task)
          (normalizeTaskChildNames task.child))).isEmpty = false := by
        simpa [List.isEmpty_iff] using h2
      simp only [processDue, hempty, Bool.false_eq_true, if_false]
      rw [if_neg h1]
      cases hdue : (runSubLoop cfg task.id start.iso d
          (subscriptions.filter (isTargetSubscription cfg
            (getTaskAudienceChildren task) (normalizeTaskChildNames task.child)))
          (initLoopState dispatched0 store0)).hadDueByOffset with
      | false =>
          have hdel : (runSubLoop cfg task.id start.iso d
              (subscriptions.filter (isTargetSubscription cfg
                (getTaskAudienceChildren task) (normalizeTaskChildNames task.child)))
              (initLoopState dispatched0 store0)).deliveredKeys = [] := by
            rw [runSubLoop_not_due_delivered cfg task.id start.iso d _ _ hdue]
            rfl
          simp [hdel]
      | true =>
          by_cases hlen : 0 < (runSubLoop cfg task.id start.iso d
              (subscriptions.filter (isTargetSubscription cfg
                (getTaskAudienceChildren task)
                (normalizeTaskChildNames task.child)))
              (initLoopState dispatched0 store0)).deliveredKeys.length
          · rw [if_neg (by simp), if_pos hlen]
            constructor
            · intro _
              exact List.length_pos.mp hlen
            · intro _
              rfl
          · rw [if_neg (by simp), if_neg hlen]
            constructor
            · intro h
              exact absurd h (by simp)
            · intro hne
              exact absurd (List.length_pos.mpr hne) hlen

lemma applyNotified_nil (store : List TaskRow) : applyNotified [] store = store := by
  simp [applyNotified]

lemma applyNotified_setNotified (ids : List String) (store : List TaskRow)
    (i : String) :
    applyNotified ids (setNotified store i) = applyNotified (i :: ids) store := by
  simp only [applyNotified, setNotified, List.map_map]
  refine List.map_congr_left ?_
  intro t _
  by_cases h1 : t.id = i <;> by_cases h2 : t.id ∈ ids <;>
    simp [Function.comp, h1, h2]

lemma notifiedIds_cons (i : String) (o : TaskOutcome)
    (l : List (String × TaskOutcome)) :
    notifiedIds ((i, o) :: l) =
      if o.notifiedSet then i :: notifiedIds l else notifiedIds l := by
  by_cases h : o.notifiedSet <;> simp [notifiedIds, h]

lemma sweepAux_state_log_indep (cfg : SweepConfig) (subs : List SubscriptionRow) :
    ∀ (tasks : List TaskRow) (st : SweepState)
      (log1 log2 : List (String × TaskOutcome)),
      (sweepAux cfg subs tasks st log1).1 = (sweepAux cfg subs tasks st log2).1 := by
  intro tasks
  induction tasks with
  | nil => intro st l1 l2; rfl
  | cons t ts ih => intro st l1 l2; exact ih _ _ _

lemma sweepAux_log_shift (cfg : SweepConfig) (subs : List SubscriptionRow) :
    ∀ (tasks : List TaskRow) (st : SweepState)
      (log : List (String × TaskOutcome)),
      (sweepAux cfg subs tasks st log).2 =
        log ++ (sweepAux cfg subs tasks st []).2 := by
  intro tasks
  induction tasks with
  | nil => intro st log; simp [sweepAux]
  | cons t ts ih =>
      intro st log
      have hstep : ∀ lg, sweepAux cfg subs (t :: ts) st lg =
          sweepAux cfg subs ts
            { taskStore := if (processTask cfg subs st.dispatched st.subStore
                  t).notifiedSet
                then setNotified st.taskStore t.id else st.taskStore,
              subStore := (processTask cfg subs st.dispatched st.subStore t).store,
              dispatched :=
                (processTask cfg subs st.dispatched st.subStore t).dispatched }
            (lg ++ [(t.id, processTask cfg subs st.dispatched st.subStore t)]) :=
        fun lg => rfl
      rw [hstep log, hstep [], ih _
        (log ++ [(t.id, processTask cfg subs st.dispatched st.subStore t)]),
        ih _ ([] ++ [(t.id, processTask cfg subs st.dispatched st.subStore t)])]
      simp

lemma sweepAux_taskStore (cfg : SweepConfig) (subs : List SubscriptionRow) :
    ∀ (tasks : List TaskRow) (st : SweepState),
      (sweepAux cfg subs tasks st []).1.taskStore =
        applyNotified (notifiedIds (sweepAux cfg subs tasks st []).2)
          st.taskStore := by
  intro tasks
  induction tasks with
  | nil =>
      intro st
      show st.taskStore = applyNotified (notifiedIds []) st.taskStore
      rw [show notifiedIds [] = [] from rfl, applyNotified_nil]
  | cons t ts ih =>
      intro st
      have hstep : ∀ lg, sweepAux cfg subs (t :: ts) st lg =
          sweepAux cfg subs ts
            { taskStore := if (processTask cfg subs st.dispatched st.subStore
                  t).notifiedSet
                then setNotified st.taskStore t.id else st.taskStore,
              subStore := (processTask cfg subs st.dispatched st.subStore t).store,
              dispatched :=
                (processTask cfg subs st.dispatched st.subStore t).dispatched }
            (lg ++ [(t.id, processTask cfg subs st.dispatched st.subStore t)]) :=
        fun lg => rfl
      rw [hstep []]
      have hst := congrArg SweepState.taskStore
        (sweepAux_state_log_indep cfg subs ts
          { taskStore := if (processTask cfg subs st.dispatched st.subStore
                t).notifiedSet
              then setNotified st.taskStore t.id else st.taskStore,
            subStore := (processTask cfg subs st.dispatched st.subStore t).store,
            dispatched :=
              (processTask cfg subs st.dispatched st.subStore t).dispatched }
          ([] ++ [(t.id, processTask cfg subs st.dispatched st.subStore t)]) [])
      rw [hst, ih, sweepAux_log_shift cfg subs ts _
        ([] ++ [(t.id, processTask cfg subs st.dispatched st.subStore t)])]
      rw [show ([] ++ [(t.id, processTask cfg subs st.dispatched st.subStore t)]) ++
          (sweepAux cfg subs ts
            { taskStore := if (processTask cfg subs st.dispatched st.subStore
                  t).notifiedSet
                then setNotified st.taskStore t.id else st.taskStore,
              subStore := (processTask cfg subs st.dispatched st.subStore t).store,
              dispatched :=
                (processTask cfg subs st.dispatched st.subStore t).dispatched }
            []).2 =
          (t.id, processTask cfg subs st.dispatched st.subStore t) ::
            (sweepAux cfg subs ts
              { taskStore := if (processTask cfg subs st.dispatched st.subStore
                    t).notifiedSet
                  then setNotified st.taskStore t.id else st.taskStore,
                subStore := (processTask cfg subs st.dispatched st.subStore t).store,
                dispatched :=
                  (processTask cfg subs st.dispatched st.subStore t).dispatched }
              []).2 from by simp, notifiedIds_cons]
      by_cases hn : (processTask cfg subs st.dispatched st.subStore t).notifiedSet
      · rw [if_pos hn, if_pos hn]
        exact applyNotified_setNotified _ _ _
      · rw [if_neg hn, if_neg hn]

/-- C4: the orchestrator sets a task's notified flag in a sweep iff at least
one delivery for that task succeeded in that sweep — the per-task outcome
requests the flag update exactly when its delivered list is non-empty, and
the sweep's final task store is the original with the flag set for exactly
the logged tasks whose outcome did so — and a task whose flag is already
true is not processed in a subsequent sweep: it is filtered out at load, and
processing it attempts and delivers nothing (for any audience), skipping it
as already notified whenever it is not also completed. -/
theorem claim_C4_notified_flag (cfg : SweepConfig)
    (subscriptions : List SubscriptionRow) (dispatched0 : List String)
    (store0 : List SubscriptionRow) (task : TaskRow) (s : SweepState) :
    ((processTask cfg subscriptions dispatched0 store0 task).notifiedSet = true ↔
      (processTask cfg subscriptions dispatched0 store0 task).deliveredKeys ≠ [])
    ∧ ((sendUpcomingTaskReminders cfg s).1.taskStore =
        applyNotified (notifiedIds (sendUpcomingTaskReminders cfg s).2)
          s.taskStore)
    ∧ (task.notified.getD false = true →
        task ∉ loadTasks s.taskStore
        ∧ (processTask cfg subscriptions dispatched0 store0 task).attemptedKeys = []
        ∧ (processTask cfg subscriptions dispatched0 store0 task).deliveredKeys = []
        ∧ (processTask cfg subscriptions dispatched0 store0 task).notifiedSet = false
        ∧ (task.completed.getD false = false →
            (processTask cfg subscriptions dispatched0 store0 task).skip =
              some .already_notified)) := by
  refine ⟨?_, ?_, ?_⟩
  · unfold processTask
    cases hel : taskEligibility cfg task with
    | error r => simp [skipOutcome]
    | ok p =>
        obtain ⟨ps, pd⟩ := p
        exact processDue_notified_iff cfg subscriptions dispatched0 store0 task ps pd
  · unfold sendUpcomingTaskReminders
    by_cases hempty : s.subStore.isEmpty
    · rw [if_pos hempty]
      show s.taskStore = applyNotified (notifiedIds []) s.taskStore
      rw [show notifiedIds [] = [] from rfl, applyNotified_nil]
    · rw [if_neg hempty]
      exact sweepAux_taskStore cfg s.subStore (loadTasks s.taskStore) s
  · intro hn
    have hload : task ∉ loadTasks s.taskStore := by
      intro hmem
      have hpred := (List.mem_filter.mp hmem).2
      simp [hn] at hpred
    have hout : ∃ r, taskEligibility cfg task = .error r ∧
        (task.completed.getD false = false → r = .already_notified) := by
      unfold taskEligibility
      by_cases h1 : task.completed.getD false = true
      · rw [if_pos h1]
        exact ⟨.completed, rfl, fun hc => absurd h1 (by simp [hc])⟩
      · rw [if_neg h1, if_pos hn]
        exact ⟨.already_notified, rfl, fun _ => rfl⟩
    obtain ⟨r, hr, himp⟩ := hout
    have hpt : processTask cfg subscriptions dispatched0 store0 task =
        skipOutcome dispatched0 store0 none r := by
      unfold processTask
      rw [hr]
    refine ⟨hload, by rw [hpt]; rfl, by rw [hpt]; rfl, by rw [hpt]; rfl, ?_⟩
    intro hc
    rw [hpt, himp hc]
    rfl

/-- Witness for C4 on the sample scenario: the delivering sweep's final store
is the sample store with the sample task flagged, and an already-notified
copy of the task is filtered at load and skipped. -/
theorem claim_C4_notified_flag_witness :
    ((processTask sampleCfg [sampleSub] [] [sampleSub] sampleTask).notifiedSet =
        true ↔
      (processTask sampleCfg [sampleSub] [] [sampleSub]
        sampleTask).deliveredKeys ≠ [])
    ∧ ((sendUpcomingTaskReminders sampleCfg
        ⟨[sampleTask], [sampleSub], []⟩).1.taskStore =
        applyNotified
          (notifiedIds (sendUpcomingTaskReminders sampleCfg
            ⟨[sampleTask], [sampleSub], []⟩).2)
          [sampleTask])
    ∧ ({ sampleTask with notified := some true } ∉ loadTasks [sampleTask]
        ∧ (processTask sampleCfg [sampleSub] [] [sampleSub]
            { sampleTask with notified := some true }).attemptedKeys = []
        ∧ (processTask sampleCfg [sampleSub] [] [sampleSub]
            { sampleTask with notified := some true }).deliveredKeys = []
        ∧ (processTask sampleCfg [sampleSub] [] [sampleSub]
            { sampleTask with notified := some true }).notifiedSet = false
        ∧ ({ sampleTask with notified := some true }.completed.getD false = false →
            (processTask sampleCfg [sampleSub] [] [sampleSub]
              { sampleTask with notified := some true }).skip =
              some .already_notified)) := by
  have h1 := claim_C4_notified_flag sampleCfg [sampleSub] [] [sampleSub]
    sampleTask ⟨[sampleTask], [sampleSub], []⟩
  have h2 := claim_C4_notified_flag sampleCfg [sampleSub] [] [sampleSub]
    { sampleTask with notified := some true } ⟨[sampleTask], [sampleSub], []⟩
  exact ⟨h1.1, h1.2.1, h2.2.2 (by decide)⟩

/-- C5: for a task whose resolved audience is non-empty, a child-owned
subscription is in the audience iff its identity is literally in the resolved
audience set; a parent-owned subscription is in the audience iff its
receive-all flag is set, or its watched-children list is empty, or that list
intersects the audience; a subscription with an unrecognized owner identity
receives nothing; and a task with recipient encoding "amit_alin" is received
by subscriptions owned by the identities keyed amit and alin, but not by the
one keyed ravid, while a parent subscription with receive_all set receives it
whatever its watched-children list holds. -/
theorem claim_C5_audience_rules (sub : SubscriptionRow) (audience : List String)
    (hne : audience ≠ []) :
    (childNameSet (trimStr (sub.user_name.getD "")) = true →
      (shouldSubscriptionReceiveTask sub audience = true ↔
        trimStr (sub.user_name.getD "") ∈ audience))
    ∧ (parentNameSet (trimStr (sub.user_name.getD "")) = true →
      (shouldSubscriptionReceiveTask sub audience = true ↔
        (sub.receive_all.getD false = true ∨
         ((splitStr (sub.watch_children.getD "") ',').map trimStr).filter
            childNameSet = [] ∨
         ∃ n ∈ ((splitStr (sub.watch_children.getD "") ',').map trimStr).filter
            childNameSet, n ∈ audience)))
    ∧ (trimStr (sub.user_name.getD "") ≠ "" →
       childNameSet (trimStr (sub.user_name.getD "")) = false →
       parentNameSet (trimStr (sub.user_name.getD "")) = false →
       shouldSubscriptionReceiveTask sub audience = false)
    ∧ (∀ p a wc lead,
        shouldSubscriptionReceiveTask ⟨"e1", p, a, some "עמית", none, wc, lead⟩
          (normalizeTaskChildNames "amit_alin") = true
        ∧ shouldSubscriptionReceiveTask ⟨"e2", p, a, some "אלין", none, wc, lead⟩
          (normalizeTaskChildNames "amit_alin") = true
        ∧ shouldSubscriptionReceiveTask ⟨"e3", p, a, some "רביד", none, wc, lead⟩
          (normalizeTaskChildNames "amit_alin") = false
        ∧ shouldSubscriptionReceiveTask ⟨"e4", p, a, some "סיוון", some true, wc, lead⟩
          (normalizeTaskChildNames "amit_alin") = true) := by
  have hlen : ¬ audience.length = 0 := by
    simpa [List.length_eq_zero] using hne
  refine ⟨?_, ?_, ?_, ?_⟩
  · intro hchild
    have hne' := childNameSet_ne_empty hchild
    simp [shouldSubscriptionReceiveTask, hlen, hne', hchild]
  · intro hparent
    have hne' := parentNameSet_ne_empty hparent
    have hnc := parent_not_child hparent
    rcases hra : sub.receive_all.getD false with _ | _
    · by_cases htr :
        ((splitStr (sub.watch_children.getD "") ',').map trimStr).filter
          childNameSet = []
      · simp [shouldSubscriptionReceiveTask, hlen, hne', hnc, hparent, hra, htr]
      · have hlen2 : ¬ (((splitStr (sub.watch_children.getD "") ',').map
            trimStr).filter childNameSet).length = 0 := by
          simpa [List.length_eq_zero] using htr
        simp [shouldSubscriptionReceiveTask, hlen, hne', hnc, hparent, hra,
          htr, hlen2, List.any_eq_true]
        aesop
    · simp [shouldSubscriptionReceiveTask, hlen, hne', hnc, hparent, hra]
  · intro hne' hnc hnp
    simp [shouldSubscriptionReceiveTask, hlen, hne', hnc, hnp]
  · intro p a wc lead
    refine ⟨?_, ?_, ?_, ?_⟩ <;> rfl

/-- Witness for C5: instantiates the audience rules on the "amit_alin"
audience with a concrete parent subscription. -/
theorem claim_C5_audience_rules_witness :
    (childNameSet (trimStr (some "סיוון" |>.getD "")) = true →
      (shouldSubscriptionReceiveTask
          ⟨"e", "p", "a", some "סיוון", some false, some "רביד", none⟩
          ["עמית", "אלין"] = true ↔
        trimStr (some "סיוון" |>.getD "") ∈ ["עמית", "אלין"]))
    ∧ (parentNameSet (trimStr (some "סיוון" |>.getD "")) = true →
      (shouldSubscriptionReceiveTask
          ⟨"e", "p", "a", some "סיוון", some false, some "רביד", none⟩
          ["עמית", "אלין"] = true ↔
        ((some false |>.getD false) = true ∨
         ((splitStr (some "רביד" |>.getD "") ',').map trimStr).filter
            childNameSet = [] ∨
         ∃ n ∈ ((splitStr (some "רביד" |>.getD "") ',').map trimStr).filter
            childNameSet, n ∈ ["עמית", "אלין"])))
    ∧ (trimStr (some "סיוון" |>.getD "") ≠ "" →
       childNameSet (trimStr (some "סיוון" |>.getD "")) = false →
       parentNameSet (trimStr (some "סיוון" |>.getD "")) = false →
       shouldSubscriptionReceiveTask
          ⟨"e", "p", "a", some "סיוון", some false, some "רביד", none⟩
          ["עמית", "אלין"] = false)
    ∧ (∀ p a wc lead,
        shouldSubscriptionReceiveTask ⟨"e1", p, a, some "עמית", none, wc, lead⟩
          (normalizeTaskChildNames "amit_alin") = true
        ∧ shouldSubscriptionReceiveTask ⟨"e2", p, a, some "אלין", none, wc, lead⟩
          (normalizeTaskChildNames "amit_alin") = true
        ∧ shouldSubscriptionReceiveTask ⟨"e3", p, a, some "רביד", none, wc, lead⟩
          (normalizeTaskChildNames "amit_alin") = false
        ∧ shouldSubscriptionReceiveTask ⟨"e4", p, a, some "סיוון", some true, wc, lead⟩
          (normalizeTaskChildNames "amit_alin") = true) :=
  claim_C5_audience_rules
    ⟨"e", "p", "a", some "סיוון", some false, some "רביד", none⟩
    ["עמית", "אלין"] (by decide)

/-- C6 counterexample: the claim says a subscription with no owner identity
receives every task regardless of the task's recipient encoding, but for a
task whose recipient encoding resolves to an empty audience the code returns
false before the wildcard branch is reached. -/
theorem claim_C6_counterexample :
    ¬ shouldSubscriptionReceiveTask
        ⟨"endpoint-1", "p", "a", none, none, none, none⟩
        (getTaskAudienceChildren
          ⟨"t1", "walk the dog", "2026-02-24", "14:00", "zzz", "dog",
            none, none, none, none, none, none⟩) = true := by
  decide

/-- C6 amended: a subscription with no owner identity recorded is included in
the audience of every task whose resolved audience is non-empty. -/
theorem claim_C6_amended (sub : SubscriptionRow) (task : TaskRow)
    (hne : getTaskAudienceChildren task ≠ [])
    (hanon : trimStr (sub.user_name.getD "") = "") :
    shouldSubscriptionReceiveTask sub (getTaskAudienceChildren task) = true := by
  have hlen : ¬ (getTaskAudienceChildren task).length = 0 := by
    simpa [List.length_eq_zero] using hne
  simp [shouldSubscriptionReceiveTask, hlen, hanon]

/-- Witness for the amended C6 on a concrete anonymous subscription and a
concrete task addressed to one child. -/
theorem claim_C6_amended_witness :
    shouldSubscriptionReceiveTask
      ⟨"endpoint-1", "p", "a", none, none, none, none⟩
      (getTaskAudienceChildren
        ⟨"t1", "walk the dog", "2026-02-24", "14:00", "alin", "dog",
          none, none, none, none, none, none⟩) = true :=
  claim_C6_amended
    ⟨"endpoint-1", "p", "a", none, none, none, none⟩
    ⟨"t1", "walk the dog", "2026-02-24", "14:00", "alin", "dog",
      none, none, none, none, none, none⟩
    (by decide) (by decide)

/-- C7 counterexample: the claim says a stored lead-time outside the
enumeration is coerced to the nearest allowed value; for the stored value 29
the nearest allowed value is 30, but the code returns the default 10. -/
theorem claim_C7_counterexample :
    normalizeReminderLeadMinutes (some 29) ≠ nearestAllowedLead 29 := by
  decide

/-- C7 amended: a present stored lead-time is kept when it belongs to the
fixed enumeration and replaced by the default mid-value 10 otherwise, and an
absent value is defaulted to 10. -/
theorem claim_C7_amended (v : Option Int) :
    (v = none → normalizeReminderLeadMinutes v = defaultReminderLeadMinutes)
    ∧ (∀ n, v = some n → n ∈ reminderLeadOptions →
        normalizeReminderLeadMinutes v = n)
    ∧ (∀ n, v = some n → n ∉ reminderLeadOptions →
        normalizeReminderLeadMinutes v = defaultReminderLeadMinutes)
    ∧ normalizeReminderLeadMinutes v ∈ reminderLeadOptions := by
  have hiff : ∀ n : Int,
      reminderLeadOptions.contains n = true ↔ n ∈ reminderLeadOptions := by
    intro n
    simp [reminderLeadOptions]
  have hsome : ∀ n : Int, normalizeReminderLeadMinutes (some n) =
      if reminderLeadOptions.contains n then n else defaultReminderLeadMinutes :=
    fun _ => rfl
  refine ⟨?_, ?_, ?_, ?_⟩
  · rintro rfl; decide
  · rintro n rfl hmem
    rw [hsome, if_pos ((hiff n).2 hmem)]
  · rintro n rfl hmem
    rw [hsome, if_neg (fun h => hmem ((hiff n).1 h))]
  · rcases v with _ | n
    · decide
    · by_cases hc : reminderLeadOptions.contains n = true
      · rw [hsome, if_pos hc]
        exact (hiff n).1 hc
      · rw [hsome, if_neg hc]
        decide

/-- Witness for the amended C7 at the out-of-enumeration stored value 29. -/
theorem claim_C7_amended_witness :
    ((some (29 : Int)) = none →
      normalizeReminderLeadMinutes (some 29) = defaultReminderLeadMinutes)
    ∧ (∀ n, (some (29 : Int)) = some n → n ∈ reminderLeadOptions →
        normalizeReminderLeadMinutes (some 29) = n)
    ∧ (∀ n, (some (29 : Int)) = some n → n ∉ reminderLeadOptions →
        normalizeReminderLeadMinutes (some 29) = defaultReminderLeadMinutes)
    ∧ normalizeReminderLeadMinutes (some 29) ∈ reminderLeadOptions :=
  claim_C7_amended (some 29)

/-- C3: the dispatch key is built from the task id, the scheduled-start
instant (its ISO rendering), the normalized lead-time, and the endpoint; with
the other components fixed, a different start instant, a different
(normalized) lead-time, or a different endpoint each yields a distinct key. -/
theorem claim_C3_dispatch_key_components (id iso iso1 iso2 ep ep1 ep2 : String)
    (l l1 l2 : Int) :
    (iso1 ≠ iso2 → mkDispatchKey id iso1 l ep ≠ mkDispatchKey id iso2 l ep)
    ∧ (l1 ∈ reminderLeadOptions → l2 ∈ reminderLeadOptions → l1 ≠ l2 →
        mkDispatchKey id iso l1 ep ≠ mkDispatchKey id iso l2 ep)
    ∧ (ep1 ≠ ep2 → mkDispatchKey id iso l ep1 ≠ mkDispatchKey id iso l ep2) := by
  refine ⟨?_, ?_, ?_⟩
  · intro hne h
    exact hne (mkDispatchKey_iso_inj id l ep h)
  · intro m1 m2 hne h
    exact hne (mkDispatchKey_lead_endpoint_inj id iso m1 m2 h).1
  · intro hne h
    exact hne (mkDispatchKey_ep_inj id iso l h)

/-- Witness for C3: a rescheduled start instant, a different lead-time, and a
different endpoint each change the concrete key of task `t1`. -/
theorem claim_C3_dispatch_key_components_witness :
    mkDispatchKey "t1" "2026-02-24T14:00:00.000Z" 10 "https://push.example/a" ≠
      mkDispatchKey "t1" "2026-02-25T14:00:00.000Z" 10 "https://push.example/a"
    ∧ mkDispatchKey "t1" "2026-02-24T14:00:00.000Z" 5 "https://push.example/a" ≠
      mkDispatchKey "t1" "2026-02-24T14:00:00.000Z" 30 "https://push.example/a"
    ∧ mkDispatchKey "t1" "2026-02-24T14:00:00.000Z" 10 "https://push.example/a" ≠
      mkDispatchKey "t1" "2026-02-24T14:00:00.000Z" 10 "https://push.example/b" :=
  ⟨(claim_C3_dispatch_key_components "t1" "x" "2026-02-24T14:00:00.000Z"
      "2026-02-25T14:00:00.000Z" "https://push.example/a" "y" "z" 10 0 0).1
      (by decide),
   (claim_C3_dispatch_key_components "t1" "2026-02-24T14:00:00.000Z" "x" "y"
      "https://push.example/a" "y" "z" 0 5 30).2.1 (by decide) (by decide)
      (by decide),
   (claim_C3_dispatch_key_components "t1" "2026-02-24T14:00:00.000Z" "x" "y" "z"
      "https://push.example/a" "https://push.example/b" 10 0 0).2.2 (by decide)⟩

/-- C9: every send is classified as exactly one of delivered (no transport
error), permanently-invalid (status 404 or 410; the subscription row is
deleted, so the endpoint is absent from the store on the next read), or
transient failure (any other error; no store mutation); and with missing push
credentials every send reports the missing-configuration outcome without
consulting the transport at all. -/
theorem claim_C9_transport_classification (result : TransportResult)
    (store : List SubscriptionRow) (row : SubscriptionRow) :
    (result = .success →
      sendToSubscription true result store row =
        ({ ok := true, removed := false, reason := none }, store))
    ∧ (∀ code, result = .failure code → (code = 404 ∨ code = 410) →
        (sendToSubscription true result store row).1 =
          { ok := false, removed := true, reason := some "expired-subscription" }
        ∧ (trimStr row.endpoint ≠ "" →
           ∀ r ∈ (sendToSubscription true result store row).2,
             r.endpoint ≠ trimStr row.endpoint))
    ∧ (∀ code, result = .failure code → ¬ (code = 404 ∨ code = 410) →
        sendToSubscription true result store row =
          ({ ok := false, removed := false, reason := some "send-failed" }, store))
    ∧ (∀ r1 r2 : TransportResult,
        sendToSubscription false r1 store row = sendToSubscription false r2 store row)
    ∧ sendToSubscription false result store row =
        ({ ok := false, removed := false, reason := some "missing-vapid" }, store) := by
  refine ⟨?_, ?_, ?_, ?_, ?_⟩
  · rintro rfl
    rfl
  · rintro code rfl hcode
    constructor
    · simp [sendToSubscription, hcode]
    · intro hne r hr
      simp only [sendToSubscription, Bool.not_true, Bool.false_eq_true,
        if_false, if_pos hcode] at hr
      simp only [removePushSubscription, if_neg hne] at hr
      exact of_decide_eq_true (List.mem_filter.mp hr).2
  · rintro code rfl hcode
    simp [sendToSubscription, hcode]
  · intro r1 r2
    rfl
  · rfl

/-- Witness for C9 at concrete transport outcomes: a 410 failure removes the
endpoint from a one-row store, a success and a 500 failure leave it in place,
and a missing configuration reports missing-vapid for any outcome. -/
theorem claim_C9_transport_classification_witness :
    (sendToSubscription true (.failure 410)
        [⟨"https://push.example/a", "p", "a", none, none, none, none⟩]
        ⟨"https://push.example/a", "p", "a", none, none, none, none⟩).1 =
      { ok := false, removed := true, reason := some "expired-subscription" }
    ∧ (∀ r ∈ (sendToSubscription true (.failure 410)
        [⟨"https://push.example/a", "p", "a", none, none, none, none⟩]
        ⟨"https://push.example/a", "p", "a", none, none, none, none⟩).2,
        r.endpoint ≠ trimStr "https://push.example/a")
    ∧ sendToSubscription true .success
        [⟨"https://push.example/a", "p", "a", none, none, none, none⟩]
        ⟨"https://push.example/a", "p", "a", none, none, none, none⟩ =
      ({ ok := true, removed := false, reason := none },
        [⟨"https://push.example/a", "p", "a", none, none, none, none⟩])
    ∧ sendToSubscription true (.failure 500)
        [⟨"https://push.example/a", "p", "a", none, none, none, none⟩]
        ⟨"https://push.example/a", "p", "a", none, none, none, none⟩ =
      ({ ok := false, removed := false, reason := some "send-failed" },
        [⟨"https://push.example/a", "p", "a", none, none, none, none⟩])
    ∧ sendToSubscription false (.failure 410)
        [⟨"https://push.example/a", "p", "a", none, none, none, none⟩]
        ⟨"https://push.example/a", "p", "a", none, none, none, none⟩ =
      ({ ok := false, removed := false, reason := some "missing-vapid" },
        [⟨"https://push.example/a", "p", "a", none, none, none, none⟩]) := by
  have h410 := claim_C9_transport_classification (.failure 410)
    [⟨"https://push.example/a", "p", "a", none, none, none, none⟩]
    ⟨"https://push.example/a", "p", "a", none, none, none, none⟩
  have hsucc := claim_C9_transport_classification .success
    [⟨"https://push.example/a", "p", "a", none, none, none, none⟩]
    ⟨"https://push.example/a", "p", "a", none, none, none, none⟩
  have h500 := claim_C9_transport_classification (.failure 500)
    [⟨"https://push.example/a", "p", "a", none, none, none, none⟩]
    ⟨"https://push.example/a", "p", "a", none, none, none, none⟩
  refine ⟨(h410.2.1 410 rfl (by decide)).1,
    (h410.2.1 410 rfl (by decide)).2 (by decide),
    hsucc.1 rfl,
    h500.2.2.1 500 rfl (by decide),
    h410.2.2.2.2⟩

end FamilyScheduler
